import Mathlib

/-!
# video_buffer (app/src/video_buffer.c)

A shallow embedding of the single-slot frame relay of scrcpy and the
properties of its producer / consumer protocol.

Modelling conventions

* An `AVFrame *` variable is modelled by the pointer it holds (the handle) and
  the data currently held by the storage that pointer designates (`none` once
  `av_frame_unref` has released it).  Several variables may hold the same
  pointer (the producer may pass a stale copy of a pointer that sits in one of
  the slots): `av_frame_unref` on a pointer releases the storage for every
  variable that holds it (`release`).  Two variables that hold the same pointer
  see the same data; an argument of the producer that respects this is called
  `consistent`.
* `unsigned` is 32 bits wide: the counter `skipped` is a natural number and
  `++` is computed modulo `2 ^ 32`.
* All accesses to the shared fields happen with the mutex held, so every
  operation is one atomic step on the state.  A thread that sits in the
  `sc_cond_wait` loop of the producer is reported as `Outcome.blocked`: the
  operation completes only from a state in which the loop condition is false.
* `assert` is modelled as checked: a failed assertion is
  `Outcome.assertion_failed`.
-/

namespace VideoBuffer

/-! ## Data model -/

/-- Number of bits of the C type `unsigned`. -/
def UINT_WIDTH : Nat := 32

/-- Largest value of the C type `unsigned`. -/
def UINT_MAX : Nat := 2 ^ UINT_WIDTH - 1

/-- A decoded frame: the pointer identity and the data held by its storage. -/
structure AVFrame where
  handle : Nat
  data : Option Nat
deriving DecidableEq, Repr

/-- Result of `av_frame_alloc` for a fresh handle: a frame with empty storage. -/
def av_frame_alloc (handle : Nat) : AVFrame :=
  { handle := handle, data := none }

/-- Effect of `av_frame_unref`: the storage is released, the handle stays. -/
def av_frame_unref (frame : AVFrame) : AVFrame :=
  { frame with data := none }

/-- What `av_frame_unref`, called on the pointer `handle`, does to a frame
variable: if the variable holds that pointer it sees its storage released, any
other variable is unaffected. -/
def release (handle : Nat) (frame : AVFrame) : AVFrame :=
  if frame.handle = handle then av_frame_unref frame else frame

/-- The fields of `struct video_buffer` (mutex, condition variable and callbacks apart). -/
structure video_buffer where
  pending_frame : AVFrame
  consumer_frame : AVFrame
  wait_consumer : Bool
  interrupted : Bool
  pending_frame_consumed : Bool
  skipped : Nat
deriving DecidableEq, Repr

/-- How a call ends: it returns, it waits on the condition variable, or an assertion fails. -/
inductive Outcome (α : Type) where
  | completed (result : α)
  | blocked
  | assertion_failed
deriving DecidableEq, Repr

/-! ## Construction -/

/-- A resource obtained from the environment during construction. -/
inductive Resource where
  | frame (handle : Nat)
  | mutex
  | cond
deriving DecidableEq, Repr

/-- What the environment answers to the allocation calls of `video_buffer_init`:
the handle returned by each `av_frame_alloc` (`none` for `NULL`) and the result
of `sc_mutex_init` and `sc_cond_init`. -/
structure Allocations where
  pending_frame : Option Nat
  consumer_frame : Option Nat
  mutex_init : Bool
  cond_init : Bool
deriving DecidableEq, Repr

/-- What `video_buffer_init` leaves behind when it returns: the returned
boolean, the initialised buffer (on success) and the resources that are still
allocated. -/
structure InitResult where
  ok : Bool
  vb : Option video_buffer
  live : List Resource
deriving DecidableEq, Repr

/-- Label `error_0` of `video_buffer_init`: return false. -/
def error_0 (live : List Resource) : Outcome InitResult :=
  .completed { ok := false, vb := none, live := live }

/-- Label `error_1` of `video_buffer_init`: free the pending frame, fall through. -/
def error_1 (p : Nat) (live : List Resource) : Outcome InitResult :=
  error_0 (live.erase (Resource.frame p))

/-- Label `error_2` of `video_buffer_init`: free the consumer frame, fall through. -/
def error_2 (p c : Nat) (live : List Resource) : Outcome InitResult :=
  error_1 p (live.erase (Resource.frame c))

/-- The function `video_buffer_init`.  `interrupted` is the indeterminate value
found in the field `vb->interrupted` before the call; `cbs` and
`on_frame_available` tell whether the two pointers checked by the assertions
are non-null.  `live` is threaded through the body: every successful
allocation adds its resource, every free or destroy removes it. -/
def video_buffer_init (interrupted : Bool) (wait_consumer : Bool)
    (env : Allocations) (cbs on_frame_available : Bool) : Outcome InitResult :=
  match env.pending_frame with
  | none => error_0 []
  | some p =>
    let live := [Resource.frame p]
    match env.consumer_frame with
    | none => error_1 p live
    | some c =>
      let live := Resource.frame c :: live
      if !env.mutex_init then
        error_2 p c live
      else
        let live := Resource.mutex :: live
        if wait_consumer && !env.cond_init then
          -- sc_mutex_destroy(&vb->mutex); goto error_2
          error_2 p c (live.erase Resource.mutex)
        else
          let live := if wait_consumer then Resource.cond :: live else live
          if !(cbs && on_frame_available) then
            .assertion_failed
          else
            .completed
              { ok := true
                vb := some
                  { pending_frame := av_frame_alloc p
                    consumer_frame := av_frame_alloc c
                    wait_consumer := wait_consumer
                    interrupted := if wait_consumer then false else interrupted
                    pending_frame_consumed := true
                    skipped := 0 }
                live := live }

/-- The buffer a successful construction produces, if it succeeds. -/
def constructed (interrupted : Bool) (wait_consumer : Bool)
    (env : Allocations) (cbs on_frame_available : Bool) : Option video_buffer :=
  match video_buffer_init interrupted wait_consumer env cbs on_frame_available with
  | .completed r => r.vb
  | .blocked => none
  | .assertion_failed => none

/-! ## Operations -/

/-- The function `swap_frames`: the new values of `*lhs` and `*rhs`. -/
def swap_frames (lhs rhs : AVFrame) : AVFrame × AVFrame :=
  let tmp := lhs
  (rhs, tmp)

/-- What `video_buffer_producer_offer_frame` leaves behind: the buffer, the
caller's variable `*pframe`, and whether `on_frame_available` was invoked. -/
structure OfferResult where
  vb : video_buffer
  pframe : AVFrame
  on_frame_available : Bool
deriving DecidableEq, Repr

/-- Condition of the `sc_cond_wait` loop of the producer (evaluated in waiting mode only). -/
def offer_wait_condition (vb : video_buffer) : Bool :=
  !vb.pending_frame_consumed && !vb.interrupted

/-- The function `video_buffer_producer_offer_frame`. -/
def video_buffer_producer_offer_frame (vb : video_buffer) (pframe : AVFrame) :
    Outcome OfferResult :=
  if vb.wait_consumer && offer_wait_condition vb then
    -- wait for the current frame to be consumed
    .blocked
  else
    -- av_frame_unref(vb->pending_frame): seen by every variable holding that pointer
    let h := vb.pending_frame.handle
    let pending := release h vb.pending_frame
    let consumer := release h vb.consumer_frame
    let offered := release h pframe
    let swapped := swap_frames offered pending
    let skipped := !vb.pending_frame_consumed
    let count := if skipped then (vb.skipped + 1) % 2 ^ UINT_WIDTH else vb.skipped
    .completed
      { vb :=
          { vb with
            pending_frame := swapped.2
            consumer_frame := consumer
            skipped := count
            pending_frame_consumed := false }
        pframe := swapped.1
        on_frame_available := !skipped }

/-- What `video_buffer_consumer_take_frame` leaves behind: the buffer, the
returned frame, the variable designated by the argument `skipped` (`none` when
the argument is `NULL`) and whether the condition variable was signalled. -/
structure TakeResult where
  vb : video_buffer
  frame : AVFrame
  skipped : Option Nat
  signalled : Bool
deriving DecidableEq, Repr

/-- The function `video_buffer_consumer_take_frame`.  The argument `skipped` is
`none` for a `NULL` pointer and `some v` for a pointer to a variable holding `v`. -/
def video_buffer_consumer_take_frame (vb : video_buffer) (skipped : Option Nat) :
    Outcome TakeResult :=
  if vb.pending_frame_consumed then
    .assertion_failed
  else
    let swapped := swap_frames vb.consumer_frame vb.pending_frame
    -- av_frame_unref(vb->pending_frame): seen by every variable holding that pointer
    let h := swapped.2.handle
    let pending := release h swapped.2
    let consumer := release h swapped.1
    let out := match skipped with
      | some _ => some vb.skipped
      | none => none
    .completed
      { vb :=
          { vb with
            pending_frame_consumed := true
            consumer_frame := consumer
            pending_frame := pending
            skipped := 0 }
        frame := consumer
        skipped := out
        signalled := vb.wait_consumer }

/-- The function `video_buffer_interrupt`. -/
def video_buffer_interrupt (vb : video_buffer) : video_buffer :=
  if vb.wait_consumer then
    { vb with interrupted := true }
  else
    vb

/-! ## Traces of completed operations -/

/-- A call of one of the three operations. -/
inductive Op where
  | offer (pframe : AVFrame)
  | take (skipped : Option Nat)
  | interrupt
deriving DecidableEq, Repr

/-- What a completed call made visible to its caller. -/
inductive Obs where
  | offered (pframe : AVFrame) (on_frame_available : Bool)
  | took (frame : AVFrame) (skipped : Option Nat)
  | interrupted
deriving DecidableEq, Repr

/-- One completed call: the next state and what the caller observed; `none`
when the call does not complete from this state. -/
def step (vb : video_buffer) : Op → Option (video_buffer × Obs)
  | .offer pframe =>
    match video_buffer_producer_offer_frame vb pframe with
    | .completed r => some (r.vb, Obs.offered r.pframe r.on_frame_available)
    | .blocked => none
    | .assertion_failed => none
  | .take skipped =>
    match video_buffer_consumer_take_frame vb skipped with
    | .completed r => some (r.vb, Obs.took r.frame r.skipped)
    | .blocked => none
    | .assertion_failed => none
  | .interrupt => some (video_buffer_interrupt vb, Obs.interrupted)

/-- A sequence of completed calls: the final state and the observations in order. -/
def exec (vb : video_buffer) : List Op → Option (video_buffer × List Obs)
  | [] => some (vb, [])
  | op :: ops =>
    match step vb op with
    | none => none
    | some (vb1, o) =>
      match exec vb1 ops with
      | none => none
      | some (vb2, os) => some (vb2, o :: os)

/-- The most recent call of a trace that is an `offer` or a `take`. -/
def last_offer_or_take : List Op → Option Op
  | [] => none
  | op :: ops =>
    match last_offer_or_take ops with
    | some o => some o
    | none =>
      match op with
      | .interrupt => none
      | o => some o

/-- Number of invocations of `on_frame_available` among the observations. -/
def callbacks : List Obs → Nat
  | [] => 0
  | Obs.offered _ true :: os => callbacks os + 1
  | _ :: os => callbacks os

/-- Number of `offer` calls of a trace. -/
def count_offers : List Op → Nat
  | [] => 0
  | Op.offer _ :: ops => count_offers ops + 1
  | _ :: ops => count_offers ops

/-- Number of `take` calls of a trace. -/
def count_takes : List Op → Nat
  | [] => 0
  | Op.take _ :: ops => count_takes ops + 1
  | _ :: ops => count_takes ops

/-- Whether a trace holds no call of `video_buffer_interrupt`. -/
def no_interrupt : List Op → Bool
  | [] => true
  | Op.interrupt :: _ => false
  | _ :: ops => no_interrupt ops

/-- A run of consecutive `offer` calls, one per frame. -/
def offers (fs : List AVFrame) : List Op :=
  fs.map Op.offer

/-- Whether one of the allocation calls that `video_buffer_init` makes in the
given mode fails (`sc_cond_init` is called in waiting mode only). -/
def allocation_fails (wait_consumer : Bool) (env : Allocations) : Bool :=
  env.pending_frame.isNone || env.consumer_frame.isNone || !env.mutex_init ||
    (wait_consumer && !env.cond_init)

/-- Sum of the skip counts that the takes of a trace wrote through their
argument `skipped` (a take called with `NULL` writes nothing). -/
def reported_skips : List Obs → Nat
  | [] => 0
  | Obs.took _ (some n) :: os => n + reported_skips os
  | _ :: os => reported_skips os

/-- Whether every take of a trace is given a non-null argument `skipped`. -/
def takes_report : List Op → Bool
  | [] => true
  | Op.take none :: _ => false
  | _ :: ops => takes_report ops

/-- Whether the counter `skipped` never wraps around along a trace: every offer
that increments it finds it below `UINT_MAX`. -/
def no_overflow (vb : video_buffer) : List Op → Bool
  | [] => true
  | op :: ops =>
    (match op with
      | .offer _ => vb.pending_frame_consumed || decide (vb.skipped < UINT_MAX)
      | _ => true) &&
    (match step vb op with
      | some (vb1, _) => no_overflow vb1 ops
      | none => true)

/-- Whether an argument of the producer agrees with the buffer: if it holds the
pointer of one of the slots, it holds the data of that slot. -/
def consistent (vb : video_buffer) (f : AVFrame) : Bool :=
  (decide (f.handle ≠ vb.pending_frame.handle) || decide (f.data = vb.pending_frame.data)) &&
    (decide (f.handle ≠ vb.consumer_frame.handle) || decide (f.data = vb.consumer_frame.data))

/-- Whether every offer of a trace is given a frame whose handle differs from
the handles held by the two slots at the time of the call. -/
def offers_distinct (vb : video_buffer) : List Op → Bool
  | [] => true
  | op :: ops =>
    (match op with
      | .offer f =>
        decide (f.handle ≠ vb.pending_frame.handle) &&
          decide (f.handle ≠ vb.consumer_frame.handle)
      | _ => true) &&
    (match step vb op with
      | some (vb1, _) => offers_distinct vb1 ops
      | none => true)

/-! ## Concrete data used to exercise the statements -/

/-- An environment in which every allocation succeeds (handles 1 and 2). -/
def env_ok : Allocations :=
  { pending_frame := some 1, consumer_frame := some 2, mutex_init := true, cond_init := true }

/-- The buffer constructed from `env_ok` in the given mode. -/
def fresh (wait_consumer : Bool) : video_buffer :=
  { pending_frame := av_frame_alloc 1
    consumer_frame := av_frame_alloc 2
    wait_consumer := wait_consumer
    interrupted := false
    pending_frame_consumed := true
    skipped := 0 }

/-- An environment in which both frames are allocated and `sc_mutex_init` fails. -/
def env_mutex_fails : Allocations :=
  { pending_frame := some 1, consumer_frame := some 2, mutex_init := false, cond_init := true }

/-- An environment in which only `sc_cond_init` fails. -/
def env_cond_fails : Allocations :=
  { pending_frame := some 1, consumer_frame := some 2, mutex_init := true, cond_init := false }

/-- A decoded frame with handle 10 and content 100. -/
def frame_A : AVFrame := { handle := 10, data := some 100 }

/-- The frame of handle 1, handed back by the first offer, decoded into again (content 102). -/
def frame_C : AVFrame := { handle := 1, data := some 102 }

/-- The `k`-th frame of a producer that decodes into the frame it holds and
offers it: the handles alternate between its own (10) and the one it got back (1). -/
def decoded (k : Nat) : AVFrame :=
  { handle := if k % 2 = 0 then 10 else 1, data := some (100 + k) }

/-- The first `n` frames of that producer. -/
def decoded_frames (n : Nat) : List AVFrame :=
  (List.range n).map decoded

/-- A decoded frame with handle 11 and content 101. -/
def frame_B : AVFrame := { handle := 11, data := some 101 }

/-! ## Basic facts -/

theorem constructed_eq {i w : Bool} {env : Allocations} {cbs ofa : Bool} {vb0 : video_buffer}
    (h : constructed i w env cbs ofa = some vb0) :
    ∃ p c, vb0 =
      { pending_frame := av_frame_alloc p
        consumer_frame := av_frame_alloc c
        wait_consumer := w
        interrupted := if w then false else i
        pending_frame_consumed := true
        skipped := 0 } := by
  unfold constructed video_buffer_init error_2 error_1 error_0 at h
  rcases env with ⟨ep, ec, em, ecd⟩
  cases ep with
  | none => simp at h
  | some p =>
    cases ec with
    | none => simp at h
    | some c =>
      refine ⟨p, c, ?_⟩
      cases em <;> cases w <;> cases ecd <;> cases cbs <;> cases ofa <;> simp at h <;>
        exact h.symm

theorem constructed_consumed {i w : Bool} {env : Allocations} {cbs ofa : Bool}
    {vb0 : video_buffer} (h : constructed i w env cbs ofa = some vb0) :
    vb0.pending_frame_consumed = true ∧ vb0.skipped = 0 ∧ vb0.wait_consumer = w ∧
      (w = true → vb0.interrupted = false) := by
  obtain ⟨p, c, rfl⟩ := constructed_eq h
  refine ⟨rfl, rfl, rfl, ?_⟩
  intro hw
  simp [hw]

theorem exec_cons {vb s : video_buffer} {op : Op} {ops : List Op} {obs : List Obs}
    (h : exec vb (op :: ops) = some (s, obs)) :
    ∃ vb1 o os, step vb op = some (vb1, o) ∧ exec vb1 ops = some (s, os) ∧ obs = o :: os := by
  simp only [exec] at h
  cases hs : step vb op with
  | none => simp [hs] at h
  | some r =>
    obtain ⟨vb1, o⟩ := r
    simp only [hs] at h
    cases he : exec vb1 ops with
    | none => simp [he] at h
    | some q =>
      obtain ⟨vb2, os⟩ := q
      simp only [he, Option.some.injEq, Prod.mk.injEq] at h
      exact ⟨vb1, o, os, rfl, by rw [he, h.1], h.2.symm⟩

theorem release_self (f : AVFrame) : release f.handle f = av_frame_unref f := by
  simp [release]

theorem release_handle (h : Nat) (f : AVFrame) : (release h f).handle = f.handle := by
  unfold release av_frame_unref
  split <;> rfl

theorem release_of_ne {h : Nat} {f : AVFrame} (hne : f.handle ≠ h) : release h f = f := by
  simp [release, hne]

theorem step_offer {vb vb1 : video_buffer} {f : AVFrame} {o : Obs}
    (h : step vb (Op.offer f) = some (vb1, o)) :
    (vb.wait_consumer && offer_wait_condition vb) = false ∧
    vb1 = { vb with
            pending_frame := release vb.pending_frame.handle f
            consumer_frame := release vb.pending_frame.handle vb.consumer_frame
            skipped := if vb.pending_frame_consumed then vb.skipped
              else (vb.skipped + 1) % 2 ^ UINT_WIDTH
            pending_frame_consumed := false } ∧
    o = Obs.offered (av_frame_unref vb.pending_frame) vb.pending_frame_consumed := by
  simp only [step, video_buffer_producer_offer_frame] at h
  cases hb : (vb.wait_consumer && offer_wait_condition vb) with
  | true => simp [hb] at h
  | false =>
    simp only [hb, Bool.false_eq_true, if_false, Option.some.injEq, Prod.mk.injEq] at h
    refine ⟨rfl, ?_, ?_⟩
    · rw [← h.1]; cases vb.pending_frame_consumed <;> simp [swap_frames]
    · rw [← h.2]; simp [swap_frames, release_self]

theorem step_take {vb vb1 : video_buffer} {sk : Option Nat} {o : Obs}
    (h : step vb (Op.take sk) = some (vb1, o)) :
    vb.pending_frame_consumed = false ∧
    vb1 = { vb with
            pending_frame_consumed := true
            consumer_frame := release vb.consumer_frame.handle vb.pending_frame
            pending_frame := av_frame_unref vb.consumer_frame
            skipped := 0 } ∧
    o = Obs.took (release vb.consumer_frame.handle vb.pending_frame)
      (sk.map (fun _ => vb.skipped)) := by
  simp only [step, video_buffer_consumer_take_frame] at h
  cases hb : vb.pending_frame_consumed with
  | true => simp [hb] at h
  | false =>
    simp only [hb, Bool.false_eq_true, if_false, Option.some.injEq, Prod.mk.injEq] at h
    refine ⟨rfl, ?_, ?_⟩
    · rw [← h.1]; simp [swap_frames, release_self]
    · rw [← h.2]; cases sk <;> simp [swap_frames]

theorem step_interrupt {vb vb1 : video_buffer} {o : Obs}
    (h : step vb Op.interrupt = some (vb1, o)) :
    vb1 = video_buffer_interrupt vb ∧ o = Obs.interrupted := by
  simp only [step, Option.some.injEq, Prod.mk.injEq] at h
  exact ⟨h.1.symm, h.2.symm⟩

theorem interrupt_fields (vb : video_buffer) :
    (video_buffer_interrupt vb).pending_frame = vb.pending_frame ∧
    (video_buffer_interrupt vb).consumer_frame = vb.consumer_frame ∧
    (video_buffer_interrupt vb).wait_consumer = vb.wait_consumer ∧
    (video_buffer_interrupt vb).pending_frame_consumed = vb.pending_frame_consumed ∧
    (video_buffer_interrupt vb).skipped = vb.skipped := by
  unfold video_buffer_interrupt
  cases h : vb.wait_consumer <;> simp [h]

theorem offer_completed {vb : video_buffer} {f : AVFrame} {r : OfferResult}
    (h : video_buffer_producer_offer_frame vb f = Outcome.completed r) :
    (vb.wait_consumer && offer_wait_condition vb) = false ∧
    r.vb = { vb with
             pending_frame := release vb.pending_frame.handle f
             consumer_frame := release vb.pending_frame.handle vb.consumer_frame
             skipped := if vb.pending_frame_consumed then vb.skipped
               else (vb.skipped + 1) % 2 ^ UINT_WIDTH
             pending_frame_consumed := false } ∧
    r.pframe = av_frame_unref vb.pending_frame ∧
    r.on_frame_available = vb.pending_frame_consumed := by
  simp only [video_buffer_producer_offer_frame] at h
  cases hb : (vb.wait_consumer && offer_wait_condition vb) with
  | true => simp [hb] at h
  | false =>
    simp only [hb, Bool.false_eq_true, if_false, Outcome.completed.injEq] at h
    refine ⟨rfl, ?_, ?_, ?_⟩
    · rw [← h]; cases vb.pending_frame_consumed <;> simp [swap_frames]
    · rw [← h]; simp [swap_frames, release_self]
    · rw [← h]; simp

theorem offer_of_not_waiting {vb : video_buffer} (f : AVFrame)
    (hb : (vb.wait_consumer && offer_wait_condition vb) = false) :
    ∃ r, video_buffer_producer_offer_frame vb f = Outcome.completed r := by
  simp [video_buffer_producer_offer_frame, hb]

theorem take_completed {vb : video_buffer} {sk : Option Nat} {r : TakeResult}
    (h : video_buffer_consumer_take_frame vb sk = Outcome.completed r) :
    vb.pending_frame_consumed = false ∧
    r.vb = { vb with
             pending_frame_consumed := true
             consumer_frame := release vb.consumer_frame.handle vb.pending_frame
             pending_frame := av_frame_unref vb.consumer_frame
             skipped := 0 } ∧
    r.frame = release vb.consumer_frame.handle vb.pending_frame ∧
    r.skipped = sk.map (fun _ => vb.skipped) ∧
    r.signalled = vb.wait_consumer := by
  simp only [video_buffer_consumer_take_frame] at h
  cases hb : vb.pending_frame_consumed with
  | true => simp [hb] at h
  | false =>
    simp only [hb, Bool.false_eq_true, if_false, Outcome.completed.injEq] at h
    refine ⟨rfl, ?_, ?_, ?_, ?_⟩
    · rw [← h]; simp [swap_frames, release_self]
    · rw [← h]; simp [swap_frames]
    · rw [← h]; cases sk <;> simp
    · rw [← h]

/-- The mode is fixed at construction. -/
theorem step_wait_consumer {vb vb1 : video_buffer} {op : Op} {o : Obs}
    (h : step vb op = some (vb1, o)) : vb1.wait_consumer = vb.wait_consumer := by
  cases op with
  | offer f => rw [(step_offer h).2.1]
  | take sk => rw [(step_take h).2.1]
  | interrupt => rw [(step_interrupt h).1]; exact (interrupt_fields vb).2.2.1

theorem exec_wait_consumer (ops : List Op) :
    ∀ (vb s : video_buffer) (obs : List Obs), exec vb ops = some (s, obs) →
      s.wait_consumer = vb.wait_consumer := by
  induction ops with
  | nil =>
    intro vb s obs h
    simp only [exec, Option.some.injEq, Prod.mk.injEq] at h
    rw [h.1]
  | cons op ops ih =>
    intro vb s obs h
    obtain ⟨vb1, o, os, hs, he, -⟩ := exec_cons h
    rw [ih vb1 s os he, step_wait_consumer hs]

/-- Without a completed offer, a state without pending frame stays so. -/
theorem exec_no_offer_consumed (ops : List Op) :
    ∀ (vb s : video_buffer) (obs : List Obs), vb.pending_frame_consumed = true →
      count_offers ops = 0 → exec vb ops = some (s, obs) →
      s.pending_frame_consumed = true := by
  induction ops with
  | nil =>
    intro vb s obs hc _ h
    simp only [exec, Option.some.injEq, Prod.mk.injEq] at h
    rw [← h.1]; exact hc
  | cons op ops ih =>
    intro vb s obs hc hn h
    obtain ⟨vb1, o, os, hs, he, -⟩ := exec_cons h
    cases op with
    | offer f => simp [count_offers] at hn
    | take sk =>
      have := (step_take hs).1
      rw [hc] at this
      exact absurd this (by simp)
    | interrupt =>
      simp only [count_offers] at hn
      refine ih vb1 s os ?_ hn he
      rw [(step_interrupt hs).1, (interrupt_fields vb).2.2.2.1]
      exact hc

theorem exec_interrupt_cons {vb s : video_buffer} {ops : List Op} {os : List Obs}
    (h : exec (video_buffer_interrupt vb) ops = some (s, os)) :
    exec vb (Op.interrupt :: ops) = some (s, Obs.interrupted :: os) := by
  simp [exec, step, h]

/-- Once set, `interrupted` stays set. -/
theorem exec_interrupted (ops : List Op) :
    ∀ (vb s : video_buffer) (obs : List Obs), vb.interrupted = true →
      exec vb ops = some (s, obs) → s.interrupted = true := by
  induction ops with
  | nil =>
    intro vb s obs hi h
    simp only [exec, Option.some.injEq, Prod.mk.injEq] at h
    rw [← h.1]; exact hi
  | cons op ops ih =>
    intro vb s obs hi h
    obtain ⟨vb1, o, os, hs, he, -⟩ := exec_cons h
    refine ih vb1 s os ?_ he
    cases op with
    | offer f => rw [(step_offer hs).2.1]; exact hi
    | take sk => rw [(step_take hs).2.1]; exact hi
    | interrupt =>
      rw [(step_interrupt hs).1]
      unfold video_buffer_interrupt
      cases hw : vb.wait_consumer <;> simp [hi]

/-- The flag `pending_frame_consumed` after a trace, read off its last offer or take. -/
theorem exec_consumed (ops : List Op) :
    ∀ (vb s : video_buffer) (obs : List Obs), exec vb ops = some (s, obs) →
      match last_offer_or_take ops with
      | none => s.pending_frame_consumed = vb.pending_frame_consumed
      | some (Op.offer _) => s.pending_frame_consumed = false
      | some _ => s.pending_frame_consumed = true := by
  induction ops with
  | nil =>
    intro vb s obs h
    simp only [exec, Option.some.injEq, Prod.mk.injEq] at h
    simp only [last_offer_or_take]
    rw [h.1]
  | cons op ops ih =>
    intro vb s obs h
    obtain ⟨vb1, o, os, hs, he, -⟩ := exec_cons h
    have := ih vb1 s os he
    simp only [last_offer_or_take]
    cases hl : last_offer_or_take ops with
    | some x =>
      simp only [hl] at this ⊢
      cases x <;> simpa using this
    | none =>
      simp only [hl] at this
      cases op with
      | offer f =>
        simp only
        rw [this, (step_offer hs).2.1]
      | take sk =>
        simp only
        rw [this, (step_take hs).2.1]
      | interrupt =>
        simp only
        rw [this, (step_interrupt hs).1]
        exact (interrupt_fields vb).2.2.2.1

/-- In waiting mode and without interrupt, no frame is ever overwritten. -/
theorem exec_waiting (ops : List Op) :
    ∀ (vb s : video_buffer) (obs : List Obs),
      vb.wait_consumer = true → vb.interrupted = false → vb.skipped = 0 →
      no_interrupt ops = true → exec vb ops = some (s, obs) →
      (s.interrupted = false ∧ s.skipped = 0) ∧
      (∀ fr n, Obs.took fr (some n) ∈ obs → n = 0) ∧
      (∀ p cb, Obs.offered p cb ∈ obs → cb = true) ∧
      count_offers ops + (if vb.pending_frame_consumed then 0 else 1) =
        count_takes ops + (if s.pending_frame_consumed then 0 else 1) := by
  induction ops with
  | nil =>
    intro vb s obs _ hi hk _ h
    simp only [exec, Option.some.injEq, Prod.mk.injEq] at h
    obtain ⟨rfl, rfl⟩ := h
    simp [hi, hk, count_offers, count_takes]
  | cons op ops ih =>
    intro vb s obs hw hi hk hn h
    obtain ⟨vb1, o, os, hs, he, rfl⟩ := exec_cons h
    cases op with
    | offer f =>
      obtain ⟨hb, hv, ho⟩ := step_offer hs
      have hc : vb.pending_frame_consumed = true := by
        simpa [hw, hi, offer_wait_condition] using hb
      have hv1 : vb1 = { vb with pending_frame := release vb.pending_frame.handle f,
                                 consumer_frame := release vb.pending_frame.handle vb.consumer_frame,
                                 pending_frame_consumed := false } := by
        rw [hv]; simp [hc]
      simp only [no_interrupt] at hn
      obtain ⟨h1, h2, h3, h4⟩ := ih vb1 s os (by rw [hv1]; exact hw) (by rw [hv1]; exact hi)
        (by rw [hv1]; exact hk) hn he
      refine ⟨h1, ?_, ?_, ?_⟩
      · intro fr n hmem
        rw [ho] at hmem
        simp only [List.mem_cons] at hmem
        rcases hmem with hmem | hmem
        · cases hmem
        · exact h2 fr n hmem
      · intro p cb hmem
        rw [ho] at hmem
        simp only [List.mem_cons, Obs.offered.injEq] at hmem
        rcases hmem with hmem | hmem
        · rw [hmem.2, hc]
        · exact h3 p cb hmem
      · have hc1 : vb1.pending_frame_consumed = false := by rw [hv1]
        simp only [hc1, Bool.false_eq_true, if_false] at h4
        simp only [count_offers, count_takes, hc, if_true]
        omega
    | take sk =>
      obtain ⟨hc, hv, ho⟩ := step_take hs
      simp only [no_interrupt] at hn
      obtain ⟨h1, h2, h3, h4⟩ := ih vb1 s os (by rw [hv]; exact hw) (by rw [hv]; exact hi)
        (by rw [hv]) hn he
      refine ⟨h1, ?_, ?_, ?_⟩
      · intro fr n hmem
        rw [ho] at hmem
        simp only [List.mem_cons, Obs.took.injEq] at hmem
        rcases hmem with hmem | hmem
        · have h5 := hmem.2
          rw [hk] at h5
          cases sk with
          | none => simp at h5
          | some v => simpa using h5
        · exact h2 fr n hmem
      · intro p cb hmem
        rw [ho] at hmem
        simp only [List.mem_cons] at hmem
        rcases hmem with hmem | hmem
        · cases hmem
        · exact h3 p cb hmem
      · have hc1 : vb1.pending_frame_consumed = true := by rw [hv]
        simp only [hc1, if_true] at h4
        simp only [count_offers, count_takes, hc, Bool.false_eq_true, if_false]
        omega
    | interrupt => simp [no_interrupt] at hn

theorem exec_append (a : List Op) :
    ∀ (b : List Op) (vb s : video_buffer) (obs : List Obs),
      exec vb (a ++ b) = some (s, obs) ↔
        ∃ s1 o1 o2, exec vb a = some (s1, o1) ∧ exec s1 b = some (s, o2) ∧ obs = o1 ++ o2 := by
  induction a with
  | nil =>
    intro b vb s obs
    constructor
    · intro h
      exact ⟨vb, [], obs, rfl, h, rfl⟩
    · rintro ⟨s1, o1, o2, h1, h2, rfl⟩
      simp only [exec, Option.some.injEq, Prod.mk.injEq] at h1
      obtain ⟨rfl, rfl⟩ := h1
      simpa using h2
  | cons op a ih =>
    intro b vb s obs
    constructor
    · intro h
      obtain ⟨vb1, o, os, hs, he, rfl⟩ := exec_cons h
      obtain ⟨s1, o1, o2, h1, h2, rfl⟩ := (ih b vb1 s os).1 he
      refine ⟨s1, o :: o1, o2, ?_, h2, rfl⟩
      simp [exec, hs, h1]
    · rintro ⟨s1, o1, o2, h1, h2, rfl⟩
      obtain ⟨vb1, o, os, hs, he, rfl⟩ := exec_cons h1
      have := (ih b vb1 s (os ++ o2)).2 ⟨s1, os, o2, he, h2, rfl⟩
      simp [exec, hs, this]

/-- Offers made while a frame is pending: none invokes the callback and each
adds one to the counter, modulo `2 ^ 32`. -/
theorem exec_offers_pending (fs : List AVFrame) :
    ∀ (vb s : video_buffer) (obs : List Obs), vb.pending_frame_consumed = false →
      exec vb (offers fs) = some (s, obs) →
      s.pending_frame_consumed = false ∧ callbacks obs = 0 ∧
      s.skipped = (if fs = [] then vb.skipped else (vb.skipped + fs.length) % 2 ^ UINT_WIDTH) := by
  induction fs with
  | nil =>
    intro vb s obs hc h
    simp only [offers, List.map_nil, exec, Option.some.injEq, Prod.mk.injEq] at h
    obtain ⟨rfl, rfl⟩ := h
    exact ⟨hc, rfl, by simp⟩
  | cons f fs ih =>
    intro vb s obs hc h
    simp only [offers, List.map_cons] at h
    obtain ⟨vb1, o, os, hs, he, rfl⟩ := exec_cons h
    obtain ⟨-, hv, ho⟩ := step_offer hs
    have hc1 : vb1.pending_frame_consumed = false := by rw [hv]
    have hk1 : vb1.skipped = (vb.skipped + 1) % 2 ^ UINT_WIDTH := by rw [hv]; simp [hc]
    obtain ⟨h1, h2, h3⟩ := ih vb1 s os hc1 he
    refine ⟨h1, ?_, ?_⟩
    · rw [ho, hc]; simpa [callbacks] using h2
    · rw [h3, hk1]
      by_cases hfs : fs = []
      · simp [hfs]
      · simp only [hfs, if_false, List.cons_ne_nil, List.length_cons]
        rw [Nat.mod_add_mod]
        congr 1
        omega

/-- Offers made from a state without pending frame: the first one invokes the
callback and leaves the counter alone, the others are counted. -/
theorem exec_offers_consumed (f : AVFrame) (fs : List AVFrame)
    (vb s : video_buffer) (obs : List Obs) (hc : vb.pending_frame_consumed = true)
    (h : exec vb (offers (f :: fs)) = some (s, obs)) :
    s.pending_frame_consumed = false ∧ callbacks obs = 1 ∧
    (∃ p os, obs = Obs.offered p true :: os) ∧
    s.skipped = (if fs = [] then vb.skipped else (vb.skipped + fs.length) % 2 ^ UINT_WIDTH) := by
  simp only [offers, List.map_cons] at h
  obtain ⟨vb1, o, os, hs, he, rfl⟩ := exec_cons h
  obtain ⟨-, hv, ho⟩ := step_offer hs
  have hc1 : vb1.pending_frame_consumed = false := by rw [hv]
  have hk1 : vb1.skipped = vb.skipped := by rw [hv]; simp [hc]
  obtain ⟨h1, h2, h3⟩ := exec_offers_pending fs vb1 s os hc1 he
  refine ⟨h1, ?_, ⟨_, os, by rw [ho, hc]⟩, by rw [h3, hk1]⟩
  rw [ho, hc]; simp [callbacks, h2]

/-- Offers always complete when the producer does not wait (non-waiting mode, or
after an interrupt). -/
theorem exec_offers_complete (fs : List AVFrame) :
    ∀ (vb : video_buffer), (vb.wait_consumer = false ∨ vb.interrupted = true) →
      ∃ s obs, exec vb (offers fs) = some (s, obs) := by
  induction fs with
  | nil =>
    intro vb _
    exact ⟨vb, [], rfl⟩
  | cons f fs ih =>
    intro vb hvb
    have hb : (vb.wait_consumer && offer_wait_condition vb) = false := by
      rcases hvb with h | h <;> simp [h, offer_wait_condition]
    have hs : ∃ vb1 o, step vb (Op.offer f) = some (vb1, o) ∧
        vb1.wait_consumer = vb.wait_consumer ∧ vb1.interrupted = vb.interrupted := by
      simp [step, video_buffer_producer_offer_frame, hb]
    obtain ⟨vb1, o, hs, hw, hi⟩ := hs
    obtain ⟨s, obs, he⟩ := ih vb1 (by rw [hw, hi]; exact hvb)
    exact ⟨s, o :: obs, by simp [offers, exec, hs] at he ⊢; simp [he]⟩

/-- A state without pending frame and with the counter at zero: what a
construction and what a take leave behind. -/
theorem nothing_pending {s0 : video_buffer}
    (hstart : (∃ i w env cbs ofa, constructed i w env cbs ofa = some s0) ∨
      (∃ vb sk r, video_buffer_consumer_take_frame vb sk = Outcome.completed r ∧ r.vb = s0)) :
    s0.pending_frame_consumed = true ∧ s0.skipped = 0 := by
  rcases hstart with ⟨i, w, env, cbs, ofa, h⟩ | ⟨vb, sk, r, h, rfl⟩
  · exact ⟨(constructed_consumed h).1, (constructed_consumed h).2.1⟩
  · unfold video_buffer_consumer_take_frame at h
    cases hb : vb.pending_frame_consumed with
    | true => simp [hb] at h
    | false =>
      simp only [hb, Bool.false_eq_true, if_false, Outcome.completed.injEq] at h
      rw [← h]
      exact ⟨rfl, rfl⟩

theorem decoded_frames_length (n : Nat) : (decoded_frames n).length = n := by
  simp [decoded_frames]

/-- The skip count a take reports after a non-empty run of offers started from a
state without pending frame and with the counter at zero. -/
theorem take_after_offers {s0 s1 : video_buffer} {fs : List AVFrame} {obs : List Obs}
    (hc : s0.pending_frame_consumed = true) (hk : s0.skipped = 0) (hN : 1 ≤ fs.length)
    (h : exec s0 (offers fs) = some (s1, obs)) (v : Nat) :
    ∃ r, video_buffer_consumer_take_frame s1 (some v) = Outcome.completed r ∧
      r.skipped = some ((fs.length - 1) % 2 ^ UINT_WIDTH) ∧ r.vb.skipped = 0 := by
  match fs, hN, h with
  | f :: fs, _, h =>
    obtain ⟨h1, -, -, h3⟩ := exec_offers_consumed f fs s0 s1 obs hc h
    have hs : s1.skipped = (fs.length) % 2 ^ UINT_WIDTH := by
      rw [h3, hk]
      by_cases hfs : fs = []
      · simp [hfs]
      · simp [hfs]
    simp [video_buffer_consumer_take_frame, h1, hs]

/-- A producer that is never made to wait can drive the counter to `UINT_MAX`:
2 ^ 32 offers without a take. -/
theorem counter_reaches_max (vb : video_buffer)
    (hfree : vb.wait_consumer = false ∨ vb.interrupted = true)
    (hc : vb.pending_frame_consumed = true) (hk : vb.skipped = 0) :
    ∃ s1 o1, exec vb (offers (decoded_frames 4294967296)) = some (s1, o1) ∧
      s1.pending_frame_consumed = false ∧ s1.skipped = 4294967295 := by
  obtain ⟨s1, o1, he⟩ := exec_offers_complete (decoded_frames 4294967296) vb hfree
  have hl := decoded_frames_length 4294967296
  refine ⟨s1, o1, he, ?_⟩
  generalize decoded_frames 4294967296 = fs at he hl
  match fs, hl, he with
  | f :: fs, hl, he =>
    obtain ⟨h1, -, -, h3⟩ := exec_offers_consumed f fs vb s1 o1 hc he
    have hlen : fs.length = 4294967295 := by simpa using hl
    have hne : fs ≠ [] := by
      intro h0
      rw [h0] at hlen
      simp at hlen
    refine ⟨h1, ?_⟩
    rw [h3, if_neg hne, hlen, hk]
    norm_num [UINT_WIDTH]

/-! ## Take returns the most recent offer -/

/-- C2, as stated, fails: in non-waiting mode, 2 ^ 32 + 1 offers on a freshly
constructed buffer followed by a take make the take report 0, not 2 ^ 32 (the
counter is an `unsigned` and wraps around). -/
theorem skip_count_wraps_around :
    constructed false false env_ok true true = some (fresh false) ∧
    ∃ s obs r,
      exec (fresh false) (offers (decoded_frames 4294967297)) = some (s, obs) ∧
      video_buffer_consumer_take_frame s (some 0) = Outcome.completed r ∧
      r.skipped = some 0 ∧ r.skipped ≠ some (4294967297 - 1) := by
  refine ⟨by decide, ?_⟩
  obtain ⟨s, obs, he⟩ :=
    exec_offers_complete (decoded_frames 4294967297) (fresh false) (Or.inl rfl)
  have hl := decoded_frames_length 4294967297
  obtain ⟨r, hr, hsk, -⟩ :=
    @take_after_offers (fresh false) s _ obs rfl rfl (by rw [hl]; norm_num) he 0
  rw [hl] at hsk
  have h0 : r.skipped = some 0 := by rw [hsk]; norm_num [UINT_WIDTH]
  refine ⟨s, obs, r, he, hr, h0, ?_⟩
  rw [h0]
  norm_num

/-- C2 (amended): for every N >= 1, starting from a freshly constructed buffer or
from the state right after a take, N completed offers followed by one take make
the take report the skip count (N - 1) mod 2 ^ 32, which is N - 1 as long as
N <= 2 ^ 32, and the counter is 0 after that take. -/
theorem skip_count_after_offers (s0 : video_buffer)
    (hstart : (∃ i w env cbs ofa, constructed i w env cbs ofa = some s0) ∨
      (∃ vb sk r, video_buffer_consumer_take_frame vb sk = Outcome.completed r ∧ r.vb = s0))
    (fs : List AVFrame) (hN : 1 ≤ fs.length) (s1 : video_buffer) (obs : List Obs)
    (hoffers : exec s0 (offers fs) = some (s1, obs)) (v : Nat) :
    ∃ r, video_buffer_consumer_take_frame s1 (some v) = Outcome.completed r ∧
      r.skipped = some ((fs.length - 1) % 2 ^ UINT_WIDTH) ∧
      (fs.length ≤ 2 ^ UINT_WIDTH → r.skipped = some (fs.length - 1)) ∧
      r.vb.skipped = 0 := by
  obtain ⟨hc, hk⟩ := nothing_pending hstart
  obtain ⟨r, hr, hsk, hz⟩ := take_after_offers hc hk hN hoffers v
  refine ⟨r, hr, hsk, ?_, hz⟩
  intro hle
  rw [hsk, Nat.mod_eq_of_lt]
  have : 0 < 2 ^ UINT_WIDTH := by norm_num [UINT_WIDTH]
  omega

theorem skip_count_after_offers_witness :
    ∃ r, video_buffer_consumer_take_frame
        { fresh false with pending_frame := decoded 2, pending_frame_consumed := false,
                           skipped := 2 } (some 7) = Outcome.completed r ∧
      r.skipped = some (((decoded_frames 3).length - 1) % 2 ^ UINT_WIDTH) ∧
      ((decoded_frames 3).length ≤ 2 ^ UINT_WIDTH →
        r.skipped = some ((decoded_frames 3).length - 1)) ∧
      r.vb.skipped = 0 :=
  skip_count_after_offers (fresh false)
    (Or.inl ⟨false, false, env_ok, true, true, by decide⟩)
    (decoded_frames 3) (by decide)
    { fresh false with pending_frame := decoded 2, pending_frame_consumed := false,
                       skipped := 2 }
    [Obs.offered (av_frame_alloc 1) true, Obs.offered (av_frame_unref (decoded 0)) false,
      Obs.offered (av_frame_unref (decoded 1)) false]
    (by decide) 7

/-- C3, as stated, fails: in non-waiting mode, after 2 ^ 32 offers on a freshly
constructed buffer the counter is 2 ^ 32 - 1, and the next offer of the run
takes it to 0 instead of adding one. -/
theorem later_offer_wraps_counter :
    constructed false false env_ok true true = some (fresh false) ∧
    ∃ s1 o1 r,
      exec (fresh false) (offers (decoded_frames 4294967296)) = some (s1, o1) ∧
      s1.skipped = 4294967295 ∧
      video_buffer_producer_offer_frame s1 (decoded 4294967296) = Outcome.completed r ∧
      r.vb.skipped = 0 ∧ r.vb.skipped ≠ s1.skipped + 1 := by
  refine ⟨by decide, ?_⟩
  obtain ⟨s1, o1, he, hs⟩ := counter_reaches_max (fresh false) (Or.inl rfl) rfl rfl
  have hw : s1.wait_consumer = false := exec_wait_consumer _ _ _ _ he
  obtain ⟨r, hr⟩ := offer_of_not_waiting (decoded 4294967296)
    (show (s1.wait_consumer && offer_wait_condition s1) = false by simp [hw])
  obtain ⟨-, hv, -, -⟩ := offer_completed hr
  have h0 : r.vb.skipped = 0 := by
    rw [hv]
    simp only [hs.1, hs.2, Bool.false_eq_true, if_false]
    norm_num [UINT_WIDTH]
  refine ⟨s1, o1, r, he, hs.2, hr, h0, ?_⟩
  rw [h0, hs.2]
  norm_num

/-- C3 (amended): for every non-empty run of completed offers with no take in
between, started from a state where nothing is pending (freshly constructed or
right after a take), the callback is invoked exactly once, by the first offer;
every later offer of the run invokes no callback and adds one to the skip
counter modulo 2 ^ 32 (exactly one unless the counter is at UINT_MAX). -/
theorem callback_once_per_run_of_offers (s0 : video_buffer)
    (hstart : (∃ i w env cbs ofa, constructed i w env cbs ofa = some s0) ∨
      (∃ vb sk r, video_buffer_consumer_take_frame vb sk = Outcome.completed r ∧ r.vb = s0))
    (f : AVFrame) (fs : List AVFrame) (s : video_buffer) (obs : List Obs)
    (hrun : exec s0 (offers (f :: fs)) = some (s, obs)) :
    callbacks obs = 1 ∧ (∃ p os, obs = Obs.offered p true :: os) ∧
    ∀ (pre : List AVFrame) (g : AVFrame) (post : List AVFrame), fs = pre ++ g :: post →
      ∃ s1 o1 r, exec s0 (offers (f :: pre)) = some (s1, o1) ∧
        video_buffer_producer_offer_frame s1 g = Outcome.completed r ∧
        r.on_frame_available = false ∧
        r.vb.skipped = (s1.skipped + 1) % 2 ^ UINT_WIDTH ∧
        (s1.skipped < UINT_MAX → r.vb.skipped = s1.skipped + 1) := by
  obtain ⟨hc, -⟩ := nothing_pending hstart
  obtain ⟨-, hcb, hfirst, -⟩ := exec_offers_consumed f fs s0 s obs hc hrun
  refine ⟨hcb, hfirst, ?_⟩
  intro pre g post hsplit
  have hops : offers (f :: fs) = offers (f :: pre) ++ offers (g :: post) := by
    rw [hsplit]
    simp [offers]
  rw [hops] at hrun
  obtain ⟨s1, o1, o2, h1, h2, -⟩ := (exec_append _ _ _ _ _).1 hrun
  obtain ⟨hp1, -, -, -⟩ := exec_offers_consumed f pre s0 s1 o1 hc h1
  simp only [offers, List.map_cons] at h2
  obtain ⟨vb1, o, os, hs, -, -⟩ := exec_cons h2
  obtain ⟨hb, -, -⟩ := step_offer hs
  obtain ⟨r, hr⟩ := offer_of_not_waiting g hb
  obtain ⟨-, hv, -, hcall⟩ := offer_completed hr
  have hsk : r.vb.skipped = (s1.skipped + 1) % 2 ^ UINT_WIDTH := by
    rw [hv]
    simp [hp1]
  refine ⟨s1, o1, r, h1, hr, by rw [hcall, hp1], hsk, ?_⟩
  intro hlt
  rw [hsk]
  apply Nat.mod_eq_of_lt
  simp only [UINT_MAX] at hlt
  have : 0 < 2 ^ UINT_WIDTH := by norm_num [UINT_WIDTH]
  omega

theorem callback_once_per_run_of_offers_witness :
    callbacks [Obs.offered (av_frame_alloc 1) true,
        Obs.offered (av_frame_unref (decoded 0)) false,
        Obs.offered (av_frame_unref (decoded 1)) false] = 1 ∧
    (∃ p os, [Obs.offered (av_frame_alloc 1) true,
        Obs.offered (av_frame_unref (decoded 0)) false,
        Obs.offered (av_frame_unref (decoded 1)) false] = Obs.offered p true :: os) ∧
    ∀ (pre : List AVFrame) (g : AVFrame) (post : List AVFrame),
      [decoded 1, decoded 2] = pre ++ g :: post →
      ∃ s1 o1 r, exec (fresh false) (offers (decoded 0 :: pre)) = some (s1, o1) ∧
        video_buffer_producer_offer_frame s1 g = Outcome.completed r ∧
        r.on_frame_available = false ∧
        r.vb.skipped = (s1.skipped + 1) % 2 ^ UINT_WIDTH ∧
        (s1.skipped < UINT_MAX → r.vb.skipped = s1.skipped + 1) :=
  callback_once_per_run_of_offers (fresh false)
    (Or.inl ⟨false, false, env_ok, true, true, by decide⟩)
    (decoded 0) [decoded 1, decoded 2]
    { fresh false with pending_frame := decoded 2, pending_frame_consumed := false,
                       skipped := 2 }
    [Obs.offered (av_frame_alloc 1) true, Obs.offered (av_frame_unref (decoded 0)) false,
      Obs.offered (av_frame_unref (decoded 1)) false]
    (by decide)

/-! ## The precondition of take -/

/-- C4: `video_buffer_consumer_take_frame` fails its assertion if and only if
`pending_frame_consumed` is true when it is called; it fails on a freshly
constructed buffer, and again after a take as long as no offer has completed
since; it succeeds right after any completed offer; and it never waits, in
either mode. -/
theorem take_fails_iff_consumed (vb : video_buffer) (sk : Option Nat) :
    (video_buffer_consumer_take_frame vb sk = Outcome.assertion_failed ↔
      vb.pending_frame_consumed = true) ∧
    video_buffer_consumer_take_frame vb sk ≠ Outcome.blocked ∧
    (∀ i w env cbs ofa vb0, constructed i w env cbs ofa = some vb0 →
      video_buffer_consumer_take_frame vb0 sk = Outcome.assertion_failed) ∧
    (∀ r, video_buffer_consumer_take_frame vb sk = Outcome.completed r →
      ∀ ops s obs sk2, count_offers ops = 0 → exec r.vb ops = some (s, obs) →
        video_buffer_consumer_take_frame s sk2 = Outcome.assertion_failed) ∧
    (∀ f r, video_buffer_producer_offer_frame vb f = Outcome.completed r →
      ∃ t, video_buffer_consumer_take_frame r.vb sk = Outcome.completed t) := by
  have key : ∀ (x : video_buffer) (k : Option Nat),
      video_buffer_consumer_take_frame x k = Outcome.assertion_failed ↔
        x.pending_frame_consumed = true := by
    intro x k
    unfold video_buffer_consumer_take_frame
    cases hx : x.pending_frame_consumed <;> simp
  refine ⟨key vb sk, ?_, ?_, ?_, ?_⟩
  · unfold video_buffer_consumer_take_frame
    cases hx : vb.pending_frame_consumed <;> simp
  · intro i w env cbs ofa vb0 h0
    exact (key vb0 sk).2 (constructed_consumed h0).1
  · intro r hr ops s obs sk2 hn he
    refine (key s sk2).2 (exec_no_offer_consumed ops r.vb s obs ?_ hn he)
    rw [(take_completed hr).2.1]
  · intro f r hr
    have hc : r.vb.pending_frame_consumed = false := by rw [(offer_completed hr).2.1]
    simp [video_buffer_consumer_take_frame, hc]

theorem take_fails_iff_consumed_witness :
    video_buffer_consumer_take_frame (fresh true) (some 0) = Outcome.assertion_failed ∧
    video_buffer_consumer_take_frame
      (video_buffer_interrupt
        { fresh true with consumer_frame := frame_A, pending_frame := av_frame_alloc 2 })
      none = Outcome.assertion_failed ∧
    ∃ t, video_buffer_consumer_take_frame
      { fresh true with pending_frame := frame_A, pending_frame_consumed := false }
      (some 0) = Outcome.completed t :=
  ⟨(take_fails_iff_consumed (fresh true) (some 0)).2.2.1 false true env_ok true true
      (fresh true) (by decide),
    (take_fails_iff_consumed
        { fresh true with pending_frame := frame_A, pending_frame_consumed := false }
        (some 0)).2.2.2.1
      { vb := { fresh true with consumer_frame := frame_A, pending_frame := av_frame_alloc 2 }
        frame := frame_A
        skipped := some 0
        signalled := true }
      (by decide) [Op.interrupt]
      (video_buffer_interrupt
        { fresh true with consumer_frame := frame_A, pending_frame := av_frame_alloc 2 })
      [Obs.interrupted] none (by decide) (by decide),
    (take_fails_iff_consumed (fresh true) (some 0)).2.2.2.2 frame_A
      { vb := { fresh true with pending_frame := frame_A, pending_frame_consumed := false }
        pframe := av_frame_alloc 1
        on_frame_available := true }
      (by decide)⟩

/-! ## Waiting mode -/

/-- C6, as stated, fails twice. In waiting mode, after an interrupt and 2 ^ 32
offers a frame is pending with the counter at 2 ^ 32 - 1; interrupt followed by
one more offer takes the counter to 0 instead of adding one. And when the frame
offered after the interrupt is a stale copy of the pointer that is pending
(here A, with the content 100 it has then), line 88 releases it: the pending
slot then holds an empty frame, not the content of F. -/
theorem interrupted_offer_wraps_counter :
    (constructed false true env_ok true true = some (fresh true) ∧
    ∃ s1 o1 r,
      exec (fresh true) (Op.interrupt :: offers (decoded_frames 4294967296)) = some (s1, o1) ∧
      s1.wait_consumer = true ∧ s1.pending_frame_consumed = false ∧
      s1.skipped = 4294967295 ∧
      video_buffer_producer_offer_frame (video_buffer_interrupt s1) (decoded 4294967296) =
        Outcome.completed r ∧
      r.vb.skipped = 0 ∧ r.vb.skipped ≠ s1.skipped + 1) ∧
    (exec (fresh true) [Op.offer frame_A] =
        some ({ fresh true with pending_frame := frame_A, pending_frame_consumed := false },
          [Obs.offered (av_frame_alloc 1) true]) ∧
      consistent
        (video_buffer_interrupt
          { fresh true with pending_frame := frame_A, pending_frame_consumed := false })
        frame_A = true ∧
      frame_A.data = some 100 ∧
      ∃ r, video_buffer_producer_offer_frame
          (video_buffer_interrupt
            { fresh true with pending_frame := frame_A, pending_frame_consumed := false })
          frame_A = Outcome.completed r ∧
        r.vb.pending_frame.handle = frame_A.handle ∧ r.vb.pending_frame.data = none) := by
  refine ⟨⟨by decide, ?_⟩, by decide, by decide, by decide, _, rfl, by decide⟩
  obtain ⟨s1, o1, he, hc, hk⟩ :=
    counter_reaches_max (video_buffer_interrupt (fresh true)) (Or.inr rfl) rfl rfl
  have hw : s1.wait_consumer = true := exec_wait_consumer _ _ _ _ he
  have hi : s1.interrupted = true := exec_interrupted _ _ _ _ rfl he
  have hint : video_buffer_interrupt s1 = s1 := by
    unfold video_buffer_interrupt
    rw [hw, if_pos rfl]
    cases s1
    simp_all
  obtain ⟨r, hr⟩ := offer_of_not_waiting (decoded 4294967296)
    (show (s1.wait_consumer && offer_wait_condition s1) = false by
      simp [offer_wait_condition, hi])
  obtain ⟨-, hv, -, -⟩ := offer_completed hr
  have h0 : r.vb.skipped = 0 := by
    rw [hv]
    simp only [hc, hk, Bool.false_eq_true, if_false]
    norm_num [UINT_WIDTH]
  refine ⟨s1, Obs.interrupted :: o1, r, ?_, hw, hc, hk, by rw [hint]; exact hr, h0, ?_⟩
  · exact exec_interrupt_cons he
  · rw [h0, hk]
    norm_num

/-- C6 (amended): in waiting mode, for every state in which a frame is pending and
unconsumed, after interrupt an offer of frame F completes with no take having
occurred: the pending slot then holds the pointer F, and F with its content
whenever F is not the pointer that was pending (the unconsumed frame is
released and handed back), `pending_frame_consumed` is false, no callback is
invoked for F and the skip counter is incremented by one modulo 2 ^ 32 (by
exactly one unless it was at UINT_MAX). -/
theorem interrupt_releases_offer (vb : video_buffer) (hw : vb.wait_consumer = true)
    (hp : vb.pending_frame_consumed = false) (F : AVFrame) :
    ∃ r, video_buffer_producer_offer_frame (video_buffer_interrupt vb) F =
        Outcome.completed r ∧
      r.vb.pending_frame.handle = F.handle ∧
      (F.handle ≠ vb.pending_frame.handle →
        r.vb.pending_frame = F ∧ r.vb.pending_frame.data = F.data) ∧
      r.pframe = av_frame_unref vb.pending_frame ∧
      r.vb.pending_frame_consumed = false ∧
      r.vb.skipped = (vb.skipped + 1) % 2 ^ UINT_WIDTH ∧
      (vb.skipped < UINT_MAX → r.vb.skipped = vb.skipped + 1) ∧
      r.on_frame_available = false := by
  have hlt : vb.skipped < UINT_MAX → (vb.skipped + 1) % 2 ^ UINT_WIDTH = vb.skipped + 1 := by
    intro h
    apply Nat.mod_eq_of_lt
    simp only [UINT_MAX] at h
    have : 0 < 2 ^ UINT_WIDTH := by norm_num [UINT_WIDTH]
    omega
  simp only [video_buffer_interrupt, hw, if_true, video_buffer_producer_offer_frame,
    offer_wait_condition, hp, swap_frames]
  simp only [Bool.not_true, Bool.and_false, Bool.false_eq_true, if_false, Bool.not_false,
    if_true, Outcome.completed.injEq, exists_eq_left', release_handle, release_self,
    true_and]
  refine ⟨?_, hlt, trivial⟩
  intro hne
  rw [release_of_ne hne]
  exact ⟨rfl, rfl⟩

theorem interrupt_releases_offer_witness :
    ∃ r, video_buffer_producer_offer_frame
        (video_buffer_interrupt
          { fresh true with pending_frame := frame_A, pending_frame_consumed := false })
        frame_B = Outcome.completed r ∧
      r.vb.pending_frame.handle = frame_B.handle ∧
      (frame_B.handle ≠ frame_A.handle →
        r.vb.pending_frame = frame_B ∧ r.vb.pending_frame.data = frame_B.data) ∧
      r.pframe = av_frame_unref frame_A ∧
      r.vb.pending_frame_consumed = false ∧
      r.vb.skipped = (0 + 1) % 2 ^ UINT_WIDTH ∧
      (0 < UINT_MAX → r.vb.skipped = 0 + 1) ∧
      r.on_frame_available = false :=
  interrupt_releases_offer
    { fresh true with pending_frame := frame_A, pending_frame_consumed := false }
    rfl rfl frame_B

/-- C8: in waiting mode, along every trace of completed offers and takes from a
freshly constructed buffer in which interrupt is never called, no frame is
dropped: the skip counter is 0 in every reached state, every take reports skip
count 0, every completed offer invokes the callback, and at most one offered
frame is unconsumed (the offers number the takes, plus one when a frame is
pending). -/
theorem waiting_mode_never_drops
    (i : Bool) (env : Allocations) (cbs ofa : Bool) (vb0 : video_buffer)
    (h0 : constructed i true env cbs ofa = some vb0)
    (ops : List Op) (hni : no_interrupt ops = true) (s : video_buffer) (obs : List Obs)
    (hexec : exec vb0 ops = some (s, obs)) :
    s.skipped = 0 ∧
    (∀ fr n, Obs.took fr (some n) ∈ obs → n = 0) ∧
    (∀ p cb, Obs.offered p cb ∈ obs → cb = true) ∧
    count_offers ops = count_takes ops + (if s.pending_frame_consumed then 0 else 1) ∧
    count_offers ops ≤ count_takes ops + 1 := by
  obtain ⟨hc, hk, hw, hi⟩ := constructed_consumed h0
  obtain ⟨h1, h2, h3, h4⟩ := exec_waiting ops vb0 s obs hw (hi rfl) hk hni hexec
  simp only [hc, if_true, Nat.add_zero] at h4
  refine ⟨h1.2, h2, h3, h4, ?_⟩
  rw [h4]
  split <;> omega

theorem waiting_mode_never_drops_witness :
    (fresh true).skipped = 0 ∧
    (∀ fr n, Obs.took fr (some n) ∈
        [Obs.offered (av_frame_alloc 1) true, Obs.took frame_A (some 0),
          Obs.offered (av_frame_alloc 2) true, Obs.took frame_C (some 0)] → n = 0) ∧
    (∀ p cb, Obs.offered p cb ∈
        [Obs.offered (av_frame_alloc 1) true, Obs.took frame_A (some 0),
          Obs.offered (av_frame_alloc 2) true, Obs.took frame_C (some 0)] → cb = true) ∧
    count_offers [Op.offer frame_A, Op.take (some 9), Op.offer frame_C, Op.take (some 9)] =
      count_takes [Op.offer frame_A, Op.take (some 9), Op.offer frame_C, Op.take (some 9)] +
        (if ({ fresh true with pending_frame := av_frame_unref frame_A,
                               consumer_frame := frame_C } :
              video_buffer).pending_frame_consumed then 0 else 1) ∧
    count_offers [Op.offer frame_A, Op.take (some 9), Op.offer frame_C, Op.take (some 9)] ≤
      count_takes [Op.offer frame_A, Op.take (some 9), Op.offer frame_C, Op.take (some 9)] + 1 :=
  waiting_mode_never_drops false env_ok true true (fresh true) (by decide)
    [Op.offer frame_A, Op.take (some 9), Op.offer frame_C, Op.take (some 9)] (by decide)
    { fresh true with pending_frame := av_frame_unref frame_A, consumer_frame := frame_C }
    [Obs.offered (av_frame_alloc 1) true, Obs.took frame_A (some 0),
      Obs.offered (av_frame_alloc 2) true, Obs.took frame_C (some 0)]
    (by decide)

/-- C9: in waiting mode, once `video_buffer_interrupt` has been called,
`interrupted` is true and stays true after every later offer, take and
interrupt, so every later offer completes without waiting, whether or not the
previous frame was consumed. -/
theorem interrupted_flag_persists (vb : video_buffer) (hw : vb.wait_consumer = true)
    (ops : List Op) (s : video_buffer) (obs : List Obs)
    (hexec : exec (video_buffer_interrupt vb) ops = some (s, obs)) (f : AVFrame) :
    (video_buffer_interrupt vb).interrupted = true ∧
    s.interrupted = true ∧
    (∃ r, video_buffer_producer_offer_frame s f = Outcome.completed r ∧
      r.vb.interrupted = true) ∧
    video_buffer_producer_offer_frame s f ≠ Outcome.blocked := by
  have hi0 : (video_buffer_interrupt vb).interrupted = true := by
    simp [video_buffer_interrupt, hw]
  have hi : s.interrupted = true := exec_interrupted ops _ s obs hi0 hexec
  refine ⟨hi0, hi, ?_, ?_⟩
  · simp [video_buffer_producer_offer_frame, offer_wait_condition, hi]
  · simp [video_buffer_producer_offer_frame, offer_wait_condition, hi]

theorem interrupted_flag_persists_witness :
    (video_buffer_interrupt (fresh true)).interrupted = true ∧
    ({ fresh true with interrupted := true, pending_frame := frame_C,
                       consumer_frame := frame_A, pending_frame_consumed := false } :
      video_buffer).interrupted = true ∧
    (∃ r, video_buffer_producer_offer_frame
        { fresh true with interrupted := true, pending_frame := frame_C,
                          consumer_frame := frame_A, pending_frame_consumed := false }
        frame_B = Outcome.completed r ∧ r.vb.interrupted = true) ∧
    video_buffer_producer_offer_frame
        { fresh true with interrupted := true, pending_frame := frame_C,
                          consumer_frame := frame_A, pending_frame_consumed := false }
        frame_B ≠ Outcome.blocked :=
  interrupted_flag_persists (fresh true) rfl
    [Op.offer frame_A, Op.take none, Op.interrupt, Op.offer frame_C]
    { fresh true with interrupted := true, pending_frame := frame_C,
                      consumer_frame := frame_A, pending_frame_consumed := false }
    [Obs.offered (av_frame_alloc 1) true, Obs.took frame_A none, Obs.interrupted,
      Obs.offered (av_frame_alloc 2) true]
    (by decide) frame_B

/-! ## Non-waiting mode -/

/-- C7: in non-waiting mode `video_buffer_producer_offer_frame` completes (it
never enters the wait) in every state of the buffer, whatever the values of
`pending_frame_consumed`, `skipped` and `interrupted`. -/
theorem offer_never_blocks_without_waiting (vb : video_buffer)
    (hw : vb.wait_consumer = false) (f : AVFrame) :
    (∃ r, video_buffer_producer_offer_frame vb f = Outcome.completed r) ∧
    video_buffer_producer_offer_frame vb f ≠ Outcome.blocked := by
  simp [video_buffer_producer_offer_frame, hw]

theorem offer_never_blocks_without_waiting_witness :
    (∃ r, video_buffer_producer_offer_frame
        { fresh false with pending_frame := frame_A, pending_frame_consumed := false,
                           interrupted := false, skipped := 5 }
        frame_B = Outcome.completed r) ∧
    video_buffer_producer_offer_frame
        { fresh false with pending_frame := frame_A, pending_frame_consumed := false,
                           interrupted := false, skipped := 5 }
        frame_B ≠ Outcome.blocked :=
  offer_never_blocks_without_waiting
    { fresh false with pending_frame := frame_A, pending_frame_consumed := false,
                       interrupted := false, skipped := 5 }
    rfl frame_B

/-! ## The consumed flag -/

/-- C10: along every trace of completed operations from a freshly constructed
buffer, `pending_frame_consumed` is false exactly when the most recent offer or
take of the trace is an offer; it is true initially, every completed offer sets
it to false, every successful take sets it to true, and interrupt does not
change it. -/
theorem consumed_flag_tracks_last_operation
    (i w : Bool) (env : Allocations) (cbs ofa : Bool) (vb0 : video_buffer)
    (h0 : constructed i w env cbs ofa = some vb0)
    (ops : List Op) (s : video_buffer) (obs : List Obs)
    (hexec : exec vb0 ops = some (s, obs)) :
    (s.pending_frame_consumed = false ↔ ∃ f, last_offer_or_take ops = some (Op.offer f)) ∧
    vb0.pending_frame_consumed = true ∧
    (∀ (vb : video_buffer) f r, video_buffer_producer_offer_frame vb f = Outcome.completed r →
      r.vb.pending_frame_consumed = false) ∧
    (∀ (vb : video_buffer) sk r, video_buffer_consumer_take_frame vb sk = Outcome.completed r →
      r.vb.pending_frame_consumed = true) ∧
    (∀ vb : video_buffer,
      (video_buffer_interrupt vb).pending_frame_consumed = vb.pending_frame_consumed) := by
  have hc := (constructed_consumed h0).1
  refine ⟨?_, hc, ?_, ?_, fun vb => (interrupt_fields vb).2.2.2.1⟩
  · have hinv := exec_consumed ops vb0 s obs hexec
    cases hl : last_offer_or_take ops with
    | none =>
      simp only [hl] at hinv
      rw [hinv, hc]
      simp
    | some x =>
      simp only [hl] at hinv
      cases x with
      | offer f =>
        simp only at hinv
        simp [hinv]
      | take sk =>
        simp only at hinv
        simp [hinv]
      | interrupt =>
        simp only at hinv
        simp [hinv]
  · intro vb f r hr
    rw [(offer_completed hr).2.1]
  · intro vb sk r hr
    rw [(take_completed hr).2.1]

theorem consumed_flag_tracks_last_operation_witness :
    (({ fresh false with pending_frame := frame_C, consumer_frame := frame_A,
                         pending_frame_consumed := false } :
        video_buffer).pending_frame_consumed = false ↔
      ∃ f, last_offer_or_take
        [Op.offer frame_A, Op.take none, Op.offer frame_C, Op.interrupt] =
          some (Op.offer f)) ∧
    (fresh false).pending_frame_consumed = true ∧
    (∀ (vb : video_buffer) f r, video_buffer_producer_offer_frame vb f = Outcome.completed r →
      r.vb.pending_frame_consumed = false) ∧
    (∀ (vb : video_buffer) sk r, video_buffer_consumer_take_frame vb sk = Outcome.completed r →
      r.vb.pending_frame_consumed = true) ∧
    (∀ vb : video_buffer,
      (video_buffer_interrupt vb).pending_frame_consumed = vb.pending_frame_consumed) :=
  consumed_flag_tracks_last_operation false false env_ok true true (fresh false) (by decide)
    [Op.offer frame_A, Op.take none, Op.offer frame_C, Op.interrupt]
    { fresh false with pending_frame := frame_C, consumer_frame := frame_A,
                       pending_frame_consumed := false }
    [Obs.offered (av_frame_alloc 1) true, Obs.took frame_A none,
      Obs.offered (av_frame_alloc 2) true, Obs.interrupted]
    (by decide)

/-! ## Ownership of the frames -/

/-- C11, as stated, fails when pointers are shared. Offering a stale copy of the
pointer that is pending (A, content 100) makes line 88 release the offered
frame: the pending slot holds the pointer A with empty storage, the content is
not intact. And when both slots hold the same pointer (after offer A, take,
offer A), offering B releases the storage of the consumer slot as well. -/
theorem offer_releases_stale_frame :
    constructed false false env_ok true true = some (fresh false) ∧
    (exec (fresh false) [Op.offer frame_A] =
        some ({ fresh false with pending_frame := frame_A, pending_frame_consumed := false },
          [Obs.offered (av_frame_alloc 1) true]) ∧
      consistent { fresh false with pending_frame := frame_A, pending_frame_consumed := false }
        frame_A = true ∧
      frame_A.data = some 100 ∧
      ∃ r, video_buffer_producer_offer_frame
          { fresh false with pending_frame := frame_A, pending_frame_consumed := false }
          frame_A = Outcome.completed r ∧
        r.vb.pending_frame.handle = frame_A.handle ∧ r.vb.pending_frame.data = none) ∧
    (exec (fresh false) [Op.offer frame_A, Op.take none, Op.offer frame_A] =
        some ({ fresh false with pending_frame := frame_A, consumer_frame := frame_A,
                                 pending_frame_consumed := false },
          [Obs.offered (av_frame_alloc 1) true, Obs.took frame_A none,
            Obs.offered (av_frame_alloc 2) true]) ∧
      ∃ r, video_buffer_producer_offer_frame
          { fresh false with pending_frame := frame_A, consumer_frame := frame_A,
                             pending_frame_consumed := false }
          frame_B = Outcome.completed r ∧
        r.vb.consumer_frame.data = none ∧ r.vb.consumer_frame ≠ frame_A) := by
  refine ⟨by decide, ⟨by decide, by decide, by decide, _, rfl, by decide⟩,
    by decide, _, rfl, by decide⟩

/-- C11 (amended): every completed offer is an exchange of handles, not a copy:
afterwards the pending slot holds the handle the caller passed in, the caller's
variable holds the handle that was in the pending slot before the call, with
its storage released (empty), and the consumer slot holds the same handle as
before. When the handle passed in is not the one that was pending, the pending
slot holds the caller's frame with its content intact; when the two slots held
different handles, the consumer slot is unchanged. -/
theorem offer_swaps_handles (vb : video_buffer) (pframe : AVFrame) (r : OfferResult)
    (h : video_buffer_producer_offer_frame vb pframe = Outcome.completed r) :
    r.vb.pending_frame.handle = pframe.handle ∧
    r.pframe.handle = vb.pending_frame.handle ∧ r.pframe.data = none ∧
    r.vb.consumer_frame.handle = vb.consumer_frame.handle ∧
    (pframe.handle ≠ vb.pending_frame.handle →
      r.vb.pending_frame = pframe ∧ r.vb.pending_frame.data = pframe.data) ∧
    (vb.consumer_frame.handle ≠ vb.pending_frame.handle →
      r.vb.consumer_frame = vb.consumer_frame) := by
  obtain ⟨-, hv, hp, -⟩ := offer_completed h
  rw [hv, hp]
  refine ⟨release_handle _ _, rfl, rfl, release_handle _ _, ?_, ?_⟩
  · intro hne
    simp [release_of_ne hne]
  · intro hne
    simp [release_of_ne hne]

theorem offer_swaps_handles_witness :
    ({ fresh false with pending_frame := frame_B, pending_frame_consumed := false,
                        skipped := 1 } : video_buffer).pending_frame.handle = frame_B.handle ∧
    (av_frame_unref frame_A).handle =
      ({ fresh false with pending_frame := frame_A, pending_frame_consumed := false } :
        video_buffer).pending_frame.handle ∧
    (av_frame_unref frame_A).data = none ∧
    ({ fresh false with pending_frame := frame_B, pending_frame_consumed := false,
                        skipped := 1 } : video_buffer).consumer_frame.handle =
      ({ fresh false with pending_frame := frame_A, pending_frame_consumed := false } :
        video_buffer).consumer_frame.handle ∧
    ({ fresh false with pending_frame := frame_B, pending_frame_consumed := false,
                        skipped := 1 } : video_buffer).pending_frame = frame_B ∧
    ({ fresh false with pending_frame := frame_B, pending_frame_consumed := false,
                        skipped := 1 } : video_buffer).consumer_frame =
      ({ fresh false with pending_frame := frame_A, pending_frame_consumed := false } :
        video_buffer).consumer_frame := by
  have h := offer_swaps_handles
    { fresh false with pending_frame := frame_A, pending_frame_consumed := false }
    frame_B
    { vb := { fresh false with pending_frame := frame_B, pending_frame_consumed := false,
                               skipped := 1 }
      pframe := av_frame_unref frame_A
      on_frame_available := false }
    (by decide)
  exact ⟨h.1, h.2.1, h.2.2.1, h.2.2.2.1, (h.2.2.2.2.1 (by decide)).1,
    h.2.2.2.2.2 (by decide)⟩

/-! ## Construction -/

/-- C12, as stated, fails: in non-waiting mode `video_buffer_init` does not write
the field `interrupted`, so a successful construction can leave it true. -/
theorem init_leaves_interrupted_unset :
    ∃ vb, constructed true false env_ok true true = some vb ∧ vb.interrupted = true :=
  ⟨{ fresh false with interrupted := true }, by decide, rfl⟩

/-- C12 (amended): after every successful construction, for both values of
`wait_consumer`, `pending_frame_consumed` is true and `skipped` is 0; in waiting
mode `interrupted` is false, while in non-waiting mode the field keeps whatever
value it had before the call (it is not written). -/
theorem init_postconditions (i w : Bool) (env : Allocations) (cbs ofa : Bool)
    (vb0 : video_buffer) (h0 : constructed i w env cbs ofa = some vb0) :
    vb0.pending_frame_consumed = true ∧ vb0.skipped = 0 ∧ vb0.wait_consumer = w ∧
    (w = true → vb0.interrupted = false) ∧
    (w = false → vb0.interrupted = i) := by
  obtain ⟨p, c, rfl⟩ := constructed_eq h0
  refine ⟨rfl, rfl, rfl, ?_, ?_⟩ <;> intro hw <;> simp [hw]

theorem init_postconditions_witness :
    (fresh true).pending_frame_consumed = true ∧ (fresh true).skipped = 0 ∧
    (fresh true).wait_consumer = true ∧
    (true = true → (fresh true).interrupted = false) ∧
    (true = false → (fresh true).interrupted = true) :=
  init_postconditions true true env_ok true true (fresh true) (by decide)

/-- C13: `video_buffer_init` returns false if and only if one of its allocations
fails (pending frame, consumer frame, mutex, or, in waiting mode only, the
condition variable); whenever it returns false every resource allocated before
the failing step has been released (nothing stays allocated, no buffer is
exposed); when it returns true the frames and the mutex are allocated, and the
condition variable exactly in waiting mode; in non-waiting mode no condition
variable is allocated and `sc_cond_init` has no influence. -/
theorem init_fails_iff_allocation_fails (i w : Bool) (env : Allocations) (cbs ofa : Bool) :
    (allocation_fails w env = true ↔
      ∃ r, video_buffer_init i w env cbs ofa = Outcome.completed r ∧ r.ok = false) ∧
    (∀ r, video_buffer_init i w env cbs ofa = Outcome.completed r → r.ok = false →
      r.live = [] ∧ r.vb = none) ∧
    (∀ r, video_buffer_init i w env cbs ofa = Outcome.completed r → r.ok = true →
      allocation_fails w env = false ∧ r.vb.isSome = true ∧
      ∃ p c, env.pending_frame = some p ∧ env.consumer_frame = some c ∧
        Resource.frame p ∈ r.live ∧ Resource.frame c ∈ r.live ∧ Resource.mutex ∈ r.live ∧
        (Resource.cond ∈ r.live ↔ w = true)) ∧
    (w = false → ∀ r, video_buffer_init i w env cbs ofa = Outcome.completed r →
      Resource.cond ∉ r.live) ∧
    (∀ b, video_buffer_init i false { env with cond_init := b } cbs ofa =
      video_buffer_init i false env cbs ofa) := by
  rcases env with ⟨ep, ec, em, ecd⟩
  refine ⟨?_, ?_, ?_, ?_, ?_⟩
  · cases ep <;> cases ec <;> cases em <;> cases w <;> cases ecd <;> cases cbs <;>
      cases ofa <;>
      simp [allocation_fails, video_buffer_init, error_2, error_1, error_0]
  · intro r hr hok
    cases ep <;> cases ec <;> cases em <;> cases w <;> cases ecd <;> cases cbs <;>
      cases ofa <;>
      simp [video_buffer_init, error_2, error_1, error_0] at hr <;>
      (subst hr; simp at hok ⊢)
  · intro r hr hok
    cases ep <;> cases ec <;> cases em <;> cases w <;> cases ecd <;> cases cbs <;>
      cases ofa <;>
      simp [video_buffer_init, error_2, error_1, error_0] at hr <;>
      (subst hr; simp [allocation_fails] at hok ⊢)
  · intro hw r hr
    subst hw
    cases ep <;> cases ec <;> cases em <;> cases ecd <;> cases cbs <;>
      cases ofa <;>
      simp [video_buffer_init, error_2, error_1, error_0] at hr <;>
      (subst hr; simp)
  · intro b
    simp [video_buffer_init]

theorem init_fails_iff_allocation_fails_witness :
    (∃ r, video_buffer_init false true env_cond_fails true true = Outcome.completed r ∧
      r.ok = false) ∧
    (({ ok := false, vb := none, live := [] } : InitResult).live = [] ∧
      ({ ok := false, vb := none, live := [] } : InitResult).vb = none) ∧
    Resource.cond ∉
      ({ ok := true, vb := some (fresh false),
         live := [Resource.mutex, Resource.frame 2, Resource.frame 1] } : InitResult).live :=
  ⟨(init_fails_iff_allocation_fails false true env_cond_fails true true).1.1 (by decide),
    (init_fails_iff_allocation_fails false false env_mutex_fails true true).2.1
      { ok := false, vb := none, live := [] } (by decide) rfl,
    (init_fails_iff_allocation_fails false false env_cond_fails true true).2.2.2.1 rfl
      { ok := true, vb := some (fresh false),
        live := [Resource.mutex, Resource.frame 2, Resource.frame 1] } (by decide)⟩

/-! ## Interrupt -/

/-- C14: `video_buffer_interrupt` changes nothing but `interrupted`: in non-waiting
mode it leaves the whole state unchanged, in waiting mode it sets `interrupted`
to true and leaves the pending slot, the consumer slot, `pending_frame_consumed`,
`skipped` and the mode unchanged; calling it twice yields the same state as
calling it once. -/
theorem interrupt_only_sets_interrupted (vb : video_buffer) :
    (vb.wait_consumer = false → video_buffer_interrupt vb = vb) ∧
    (vb.wait_consumer = true →
      video_buffer_interrupt vb = { vb with interrupted := true }) ∧
    ((video_buffer_interrupt vb).pending_frame = vb.pending_frame ∧
      (video_buffer_interrupt vb).consumer_frame = vb.consumer_frame ∧
      (video_buffer_interrupt vb).pending_frame_consumed = vb.pending_frame_consumed ∧
      (video_buffer_interrupt vb).skipped = vb.skipped ∧
      (video_buffer_interrupt vb).wait_consumer = vb.wait_consumer) ∧
    video_buffer_interrupt (video_buffer_interrupt vb) = video_buffer_interrupt vb := by
  unfold video_buffer_interrupt
  cases hw : vb.wait_consumer <;> simp [hw]

theorem interrupt_only_sets_interrupted_witness :
    video_buffer_interrupt (fresh false) = fresh false ∧
    video_buffer_interrupt (fresh true) = { fresh true with interrupted := true } :=
  ⟨(interrupt_only_sets_interrupted (fresh false)).1 rfl,
    (interrupt_only_sets_interrupted (fresh true)).2.1 rfl⟩

/-! ## Callbacks and takes -/

/-- Every callback is matched by a take or by the frame still pending. -/
theorem exec_callbacks (ops : List Op) :
    ∀ (vb s : video_buffer) (obs : List Obs), exec vb ops = some (s, obs) →
      callbacks obs + (if vb.pending_frame_consumed then 0 else 1) =
        count_takes ops + (if s.pending_frame_consumed then 0 else 1) := by
  induction ops with
  | nil =>
    intro vb s obs h
    simp only [exec, Option.some.injEq, Prod.mk.injEq] at h
    obtain ⟨rfl, rfl⟩ := h
    simp [callbacks, count_takes]
  | cons op ops ih =>
    intro vb s obs h
    obtain ⟨vb1, o, os, hs, he, rfl⟩ := exec_cons h
    have hrec := ih vb1 s os he
    cases op with
    | offer f =>
      obtain ⟨-, hv, ho⟩ := step_offer hs
      have hc1 : vb1.pending_frame_consumed = false := by rw [hv]
      simp only [hc1, Bool.false_eq_true, if_false] at hrec
      rw [ho]
      cases hc : vb.pending_frame_consumed <;> simp only [callbacks, count_takes] <;>
        simp <;> omega
    | take sk =>
      obtain ⟨hc, hv, ho⟩ := step_take hs
      have hc1 : vb1.pending_frame_consumed = true := by rw [hv]
      simp only [hc1, if_true] at hrec
      rw [ho]
      simp only [callbacks, count_takes, hc, Bool.false_eq_true, if_false]
      omega
    | interrupt =>
      obtain ⟨hv, ho⟩ := step_interrupt hs
      have hc1 : vb1.pending_frame_consumed = vb.pending_frame_consumed := by
        rw [hv]; exact (interrupt_fields vb).2.2.2.1
      rw [hc1] at hrec
      rw [ho]
      simpa only [callbacks, count_takes] using hrec

/-- C15: along every trace of completed offers, takes and interrupts from a
freshly constructed buffer, in either mode, the number of callbacks invoked so
far equals the number of takes performed so far, plus one if a frame is pending
(`pending_frame_consumed` false); hence the takes never outnumber the callbacks
and at most one callback is waiting for its take. -/
theorem callbacks_match_takes
    (i w : Bool) (env : Allocations) (cbs ofa : Bool) (vb0 : video_buffer)
    (h0 : constructed i w env cbs ofa = some vb0)
    (ops : List Op) (s : video_buffer) (obs : List Obs)
    (hexec : exec vb0 ops = some (s, obs)) :
    callbacks obs = count_takes ops + (if s.pending_frame_consumed then 0 else 1) ∧
    count_takes ops ≤ callbacks obs ∧ callbacks obs ≤ count_takes ops + 1 := by
  have hinv := exec_callbacks ops vb0 s obs hexec
  simp only [(constructed_consumed h0).1, if_true, Nat.add_zero] at hinv
  refine ⟨hinv, ?_, ?_⟩ <;> rw [hinv] <;> split <;> omega

theorem callbacks_match_takes_witness :
    callbacks [Obs.offered (av_frame_alloc 1) true, Obs.offered (av_frame_unref frame_A) false,
        Obs.took frame_C (some 1), Obs.interrupted, Obs.offered (av_frame_alloc 2) true] =
      count_takes [Op.offer frame_A, Op.offer frame_C, Op.take (some 0), Op.interrupt,
          Op.offer frame_A] +
        (if ({ fresh false with pending_frame := frame_A, consumer_frame := frame_C,
                                pending_frame_consumed := false } :
              video_buffer).pending_frame_consumed then 0 else 1) ∧
    count_takes [Op.offer frame_A, Op.offer frame_C, Op.take (some 0), Op.interrupt,
        Op.offer frame_A] ≤
      callbacks [Obs.offered (av_frame_alloc 1) true, Obs.offered (av_frame_unref frame_A) false,
        Obs.took frame_C (some 1), Obs.interrupted, Obs.offered (av_frame_alloc 2) true] ∧
    callbacks [Obs.offered (av_frame_alloc 1) true, Obs.offered (av_frame_unref frame_A) false,
        Obs.took frame_C (some 1), Obs.interrupted, Obs.offered (av_frame_alloc 2) true] ≤
      count_takes [Op.offer frame_A, Op.offer frame_C, Op.take (some 0), Op.interrupt,
        Op.offer frame_A] + 1 :=
  callbacks_match_takes false false env_ok true true (fresh false) (by decide)
    [Op.offer frame_A, Op.offer frame_C, Op.take (some 0), Op.interrupt, Op.offer frame_A]
    { fresh false with pending_frame := frame_A, consumer_frame := frame_C,
                       pending_frame_consumed := false }
    [Obs.offered (av_frame_alloc 1) true, Obs.offered (av_frame_unref frame_A) false,
      Obs.took frame_C (some 1), Obs.interrupted, Obs.offered (av_frame_alloc 2) true]
    (by decide)

/-! ## The pending slot -/

/-- C17, as stated, fails: the frame that was in the pending slot before take is
not released. After offer A, take, offer C, a take moves C (content 102) to the
consumer slot and returns it with its content; the storage that is released is
that of A, the frame that was in the consumer slot. -/
theorem take_keeps_pending_storage :
    constructed false false env_ok true true = some (fresh false) ∧
    exec (fresh false) [Op.offer frame_A, Op.take none, Op.offer frame_C] =
      some ({ fresh false with pending_frame := frame_C, consumer_frame := frame_A,
                               pending_frame_consumed := false },
        [Obs.offered (av_frame_alloc 1) true, Obs.took frame_A none,
          Obs.offered (av_frame_alloc 2) true]) ∧
    ∃ r, video_buffer_consumer_take_frame
        { fresh false with pending_frame := frame_C, consumer_frame := frame_A,
                           pending_frame_consumed := false } none = Outcome.completed r ∧
      r.vb.consumer_frame = frame_C ∧ r.frame.data = some 102 ∧
      r.vb.consumer_frame.data ≠ none ∧
      r.vb.pending_frame = av_frame_unref frame_A := by
  refine ⟨by decide, by decide, _, rfl, ?_⟩
  decide

/-- C17 (amended): for every state satisfying the precondition of take, take
exchanges the handles of the two slots (the consumer slot receives the handle
that was pending, the pending slot receives the handle that was in the consumer
slot) and releases the frame storage of whatever was in the consumer slot
before the call; the frame returned is the one now in the consumer slot, and
when the two slots held different handles it is the frame that was pending,
with its content. -/
theorem take_swaps_and_releases_old_consumer (vb : video_buffer)
    (hpre : vb.pending_frame_consumed = false) (sk : Option Nat) :
    ∃ r, video_buffer_consumer_take_frame vb sk = Outcome.completed r ∧
      r.vb.consumer_frame.handle = vb.pending_frame.handle ∧
      r.vb.pending_frame.handle = vb.consumer_frame.handle ∧
      r.vb.pending_frame.data = none ∧
      r.frame = r.vb.consumer_frame ∧
      (vb.pending_frame.handle ≠ vb.consumer_frame.handle →
        r.vb.consumer_frame.data = vb.pending_frame.data ∧ r.frame = vb.pending_frame) := by
  simp only [video_buffer_consumer_take_frame, hpre, swap_frames, Bool.false_eq_true,
    if_false, Outcome.completed.injEq, exists_eq_left', release_handle, release_self,
    true_and]
  refine ⟨rfl, rfl, ?_⟩
  intro hne
  rw [release_of_ne hne]
  exact ⟨rfl, rfl⟩

theorem take_swaps_and_releases_old_consumer_witness :
    ∃ r, video_buffer_consumer_take_frame
        { fresh false with pending_frame := frame_C, consumer_frame := frame_A,
                           pending_frame_consumed := false } (some 0) =
        Outcome.completed r ∧
      r.vb.consumer_frame.handle = frame_C.handle ∧
      r.vb.pending_frame.handle = frame_A.handle ∧
      r.vb.pending_frame.data = none ∧
      r.frame = r.vb.consumer_frame ∧
      (frame_C.handle ≠ frame_A.handle →
        r.vb.consumer_frame.data = frame_C.data ∧ r.frame = frame_C) :=
  take_swaps_and_releases_old_consumer
    { fresh false with pending_frame := frame_C, consumer_frame := frame_A,
                       pending_frame_consumed := false } rfl (some 0)

/-! ## Frame accounting -/

/-- As long as the counter does not wrap and every take reports, the offers are
accounted for by the takes, the reported skips, the counter and the pending frame. -/
theorem exec_accounting (ops : List Op) :
    ∀ (vb s : video_buffer) (obs : List Obs),
      no_overflow vb ops = true → takes_report ops = true →
      exec vb ops = some (s, obs) →
      count_offers ops + vb.skipped + (if vb.pending_frame_consumed then 0 else 1) =
        count_takes ops + reported_skips obs + s.skipped +
          (if s.pending_frame_consumed then 0 else 1) := by
  induction ops with
  | nil =>
    intro vb s obs _ _ h
    simp only [exec, Option.some.injEq, Prod.mk.injEq] at h
    obtain ⟨rfl, rfl⟩ := h
    simp [count_offers, count_takes, reported_skips]
  | cons op ops ih =>
    intro vb s obs hno hrep h
    obtain ⟨vb1, o, os, hs, he, rfl⟩ := exec_cons h
    simp only [no_overflow, hs, Bool.and_eq_true] at hno
    cases op with
    | offer f =>
      obtain ⟨-, hv, ho⟩ := step_offer hs
      simp only [takes_report] at hrep
      have hrec := ih vb1 s os hno.2 hrep he
      have hc1 : vb1.pending_frame_consumed = false := by rw [hv]
      simp only [hc1, Bool.false_eq_true, if_false] at hrec
      rw [ho]
      simp only [count_offers, count_takes, reported_skips]
      cases hc : vb.pending_frame_consumed with
      | true =>
        have hk1 : vb1.skipped = vb.skipped := by rw [hv]; simp [hc]
        rw [hk1] at hrec
        simp only [if_true]
        omega
      | false =>
        have hlt : vb.skipped < UINT_MAX := by simpa [hc] using hno.1
        have hk1 : vb1.skipped = vb.skipped + 1 := by
          rw [hv]
          simp only [hc, Bool.false_eq_true, if_false]
          apply Nat.mod_eq_of_lt
          simp only [UINT_MAX] at hlt
          have : 0 < 2 ^ UINT_WIDTH := by norm_num [UINT_WIDTH]
          omega
        rw [hk1] at hrec
        simp only [Bool.false_eq_true, if_false]
        omega
    | take sk =>
      obtain ⟨hc, hv, ho⟩ := step_take hs
      cases sk with
      | none => simp [takes_report] at hrep
      | some v =>
        simp only [takes_report] at hrep
        have hrec := ih vb1 s os hno.2 hrep he
        have hc1 : vb1.pending_frame_consumed = true := by rw [hv]
        have hk1 : vb1.skipped = 0 := by rw [hv]
        simp only [hc1, hk1, if_true] at hrec
        rw [ho]
        simp only [count_offers, count_takes, reported_skips, Option.map_some, hc,
          Bool.false_eq_true, if_false]
        omega
    | interrupt =>
      obtain ⟨hv, ho⟩ := step_interrupt hs
      simp only [takes_report] at hrep
      have hrec := ih vb1 s os hno.2 hrep he
      rw [hv, (interrupt_fields vb).2.2.2.1, (interrupt_fields vb).2.2.2.2] at hrec
      rw [ho]
      simpa only [count_offers, count_takes, reported_skips] using hrec

/-- C18, as stated, fails: a take called with a null `skipped` argument reports
nothing. After offer A, offer C and such a take (no overflow), two frames were
offered, but one take, no reported skip, a counter at 0 and nothing pending
account for one only. -/
theorem unreported_skips_are_lost :
    constructed false false env_ok true true = some (fresh false) ∧
    exec (fresh false) [Op.offer frame_A, Op.offer frame_C, Op.take none] =
      some ({ fresh false with pending_frame := av_frame_alloc 2, consumer_frame := frame_C },
        [Obs.offered (av_frame_alloc 1) true, Obs.offered (av_frame_unref frame_A) false,
          Obs.took frame_C none]) ∧
    no_overflow (fresh false) [Op.offer frame_A, Op.offer frame_C, Op.take none] = true ∧
    count_offers [Op.offer frame_A, Op.offer frame_C, Op.take none] = 2 ∧
    count_takes [Op.offer frame_A, Op.offer frame_C, Op.take none] +
      reported_skips [Obs.offered (av_frame_alloc 1) true,
        Obs.offered (av_frame_unref frame_A) false, Obs.took frame_C none] +
      ({ fresh false with pending_frame := av_frame_alloc 2, consumer_frame := frame_C } :
        video_buffer).skipped +
      (if ({ fresh false with pending_frame := av_frame_alloc 2, consumer_frame := frame_C } :
          video_buffer).pending_frame_consumed then 0 else 1) = 1 := by
  refine ⟨by decide, by decide, by decide, by decide, by decide⟩

/-- C18 (amended): along every trace of completed offers, takes and interrupts
from a freshly constructed buffer, in either mode, with the skip counter not
overflowing and every take given a non-null `skipped` argument, the number of
completed offers equals the number of takes, plus the sum of the skip counts
reported by those takes, plus the current skip counter, plus one if
`pending_frame_consumed` is false. -/
theorem frame_accounting
    (i w : Bool) (env : Allocations) (cbs ofa : Bool) (vb0 : video_buffer)
    (h0 : constructed i w env cbs ofa = some vb0)
    (ops : List Op) (s : video_buffer) (obs : List Obs)
    (hexec : exec vb0 ops = some (s, obs))
    (hno : no_overflow vb0 ops = true) (hrep : takes_report ops = true) :
    count_offers ops =
      count_takes ops + reported_skips obs + s.skipped +
        (if s.pending_frame_consumed then 0 else 1) := by
  have hinv := exec_accounting ops vb0 s obs hno hrep hexec
  obtain ⟨hc, hk, -, -⟩ := constructed_consumed h0
  simpa [hc, hk] using hinv

theorem frame_accounting_witness :
    count_offers [Op.offer frame_A, Op.offer frame_C, Op.take (some 0), Op.interrupt,
        Op.offer frame_A] =
      count_takes [Op.offer frame_A, Op.offer frame_C, Op.take (some 0), Op.interrupt,
          Op.offer frame_A] +
        reported_skips [Obs.offered (av_frame_alloc 1) true,
          Obs.offered (av_frame_unref frame_A) false, Obs.took frame_C (some 1),
          Obs.interrupted, Obs.offered (av_frame_alloc 2) true] +
        ({ fresh false with pending_frame := frame_A, consumer_frame := frame_C,
                            pending_frame_consumed := false } : video_buffer).skipped +
        (if ({ fresh false with pending_frame := frame_A, consumer_frame := frame_C,
                                pending_frame_consumed := false } :
              video_buffer).pending_frame_consumed then 0 else 1) :=
  frame_accounting false false env_ok true true (fresh false) (by decide)
    [Op.offer frame_A, Op.offer frame_C, Op.take (some 0), Op.interrupt, Op.offer frame_A]
    { fresh false with pending_frame := frame_A, consumer_frame := frame_C,
                       pending_frame_consumed := false }
    [Obs.offered (av_frame_alloc 1) true, Obs.offered (av_frame_unref frame_A) false,
      Obs.took frame_C (some 1), Obs.interrupted, Obs.offered (av_frame_alloc 2) true]
    (by decide) (by decide) (by decide)

/-! ## Handle conservation -/

/-- The two slots keep distinct handles as long as the producer offers handles
that are in neither slot. -/
theorem exec_distinct (ops : List Op) :
    ∀ (vb s : video_buffer) (obs : List Obs),
      vb.pending_frame.handle ≠ vb.consumer_frame.handle →
      offers_distinct vb ops = true → exec vb ops = some (s, obs) →
      s.pending_frame.handle ≠ s.consumer_frame.handle := by
  induction ops with
  | nil =>
    intro vb s obs hd _ h
    simp only [exec, Option.some.injEq, Prod.mk.injEq] at h
    rw [← h.1]; exact hd
  | cons op ops ih =>
    intro vb s obs hd hfresh h
    obtain ⟨vb1, o, os, hs, he, -⟩ := exec_cons h
    simp only [offers_distinct, hs, Bool.and_eq_true] at hfresh
    refine ih vb1 s os ?_ hfresh.2 he
    cases op with
    | offer f =>
      rw [(step_offer hs).2.1]
      have := hfresh.1
      simp only [Bool.and_eq_true, decide_eq_true_eq] at this
      simp only [release_handle]
      exact this.2
    | take sk =>
      rw [(step_take hs).2.1]
      simp only [release_handle]
      exact fun heq => hd heq.symm
    | interrupt =>
      rw [(step_interrupt hs).1, (interrupt_fields vb).1, (interrupt_fields vb).2.1]
      exact hd

/-- Only take writes the consumer slot, as long as the slots hold distinct
handles and the producer offers handles that are in neither slot. -/
theorem exec_no_take_consumer (ops : List Op) :
    ∀ (vb s : video_buffer) (obs : List Obs),
      vb.pending_frame.handle ≠ vb.consumer_frame.handle →
      offers_distinct vb ops = true → count_takes ops = 0 →
      exec vb ops = some (s, obs) → s.consumer_frame = vb.consumer_frame := by
  induction ops with
  | nil =>
    intro vb s obs _ _ _ h
    simp only [exec, Option.some.injEq, Prod.mk.injEq] at h
    rw [h.1]
  | cons op ops ih =>
    intro vb s obs hd hfresh hn h
    obtain ⟨vb1, o, os, hs, he, -⟩ := exec_cons h
    simp only [offers_distinct, hs, Bool.and_eq_true] at hfresh
    cases op with
    | offer f =>
      simp only [count_takes] at hn
      have hf := hfresh.1
      simp only [Bool.and_eq_true, decide_eq_true_eq] at hf
      have hv := (step_offer hs).2.1
      have hd1 : vb1.pending_frame.handle ≠ vb1.consumer_frame.handle := by
        rw [hv]
        simp only [release_handle]
        exact hf.2
      rw [ih vb1 s os hd1 hfresh.2 hn he, hv]
      exact release_of_ne (fun heq => hd heq.symm)
    | take sk => simp [count_takes] at hn
    | interrupt =>
      simp only [count_takes] at hn
      have hv := (step_interrupt hs).1
      have hd1 : vb1.pending_frame.handle ≠ vb1.consumer_frame.handle := by
        rw [hv, (interrupt_fields vb).1, (interrupt_fields vb).2.1]
        exact hd
      rw [ih vb1 s os hd1 hfresh.2 hn he, hv, (interrupt_fields vb).2.1]

/-- The slots of a constructed buffer hold the handles `av_frame_alloc` returned. -/
theorem constructed_handles {i w : Bool} {env : Allocations} {cbs ofa : Bool}
    {vb0 : video_buffer} (h : constructed i w env cbs ofa = some vb0) :
    env.pending_frame = some vb0.pending_frame.handle ∧
    env.consumer_frame = some vb0.consumer_frame.handle := by
  unfold constructed video_buffer_init error_2 error_1 error_0 at h
  rcases env with ⟨ep, ec, em, ecd⟩
  cases ep with
  | none => simp at h
  | some p =>
    cases ec with
    | none => simp at h
    | some c =>
      cases em <;> cases w <;> cases ecd <;> cases cbs <;> cases ofa <;> simp at h <;>
        (subst h; exact ⟨rfl, rfl⟩)

/-- C19: if the two slots hold distinct handles after construction and every
offer is given a handle distinct from both slot handles, then in every reached
state the pending slot and the consumer slot hold distinct handles; an offer
maps the triple (caller's handle, pending handle, consumer handle) to a
permutation of itself, a take swaps the pending and consumer handles, and the
frame returned by a take stays in the consumer slot, with a handle different
from the one any later offer overwrites, until the next take. -/
theorem handles_are_conserved
    (i w : Bool) (env : Allocations) (cbs ofa : Bool) (vb0 : video_buffer)
    (h0 : constructed i w env cbs ofa = some vb0)
    (hd : vb0.pending_frame.handle ≠ vb0.consumer_frame.handle)
    (ops : List Op) (s : video_buffer) (obs : List Obs)
    (hexec : exec vb0 ops = some (s, obs))
    (hfresh : offers_distinct vb0 ops = true) :
    (env.pending_frame = some vb0.pending_frame.handle ∧
      env.consumer_frame = some vb0.consumer_frame.handle) ∧
    s.pending_frame.handle ≠ s.consumer_frame.handle ∧
    (∀ f r, video_buffer_producer_offer_frame s f = Outcome.completed r →
      r.pframe.handle = s.pending_frame.handle ∧
      r.vb.pending_frame.handle = f.handle ∧
      r.vb.consumer_frame.handle = s.consumer_frame.handle ∧
      List.Perm [r.pframe.handle, r.vb.pending_frame.handle, r.vb.consumer_frame.handle]
        [f.handle, s.pending_frame.handle, s.consumer_frame.handle]) ∧
    (∀ sk t, video_buffer_consumer_take_frame s sk = Outcome.completed t →
      t.vb.pending_frame.handle = s.consumer_frame.handle ∧
      t.vb.consumer_frame.handle = s.pending_frame.handle ∧
      t.frame.handle = s.pending_frame.handle ∧
      t.vb.pending_frame.handle ≠ t.vb.consumer_frame.handle ∧
      ∀ ops2 s2 obs2, count_takes ops2 = 0 → offers_distinct t.vb ops2 = true →
        exec t.vb ops2 = some (s2, obs2) →
        s2.consumer_frame = t.frame ∧
        s2.pending_frame.handle ≠ t.frame.handle ∧
        ∀ g r2, video_buffer_producer_offer_frame s2 g = Outcome.completed r2 →
          r2.pframe.handle ≠ t.frame.handle ∧ r2.vb.consumer_frame = t.frame) := by
  have hs := exec_distinct ops vb0 s obs hd hfresh hexec
  refine ⟨constructed_handles h0, hs, ?_, ?_⟩
  · intro f r hr
    obtain ⟨-, hv, hp, -⟩ := offer_completed hr
    have h1 : r.pframe.handle = s.pending_frame.handle := by rw [hp]; rfl
    have h2 : r.vb.pending_frame.handle = f.handle := by rw [hv]; exact release_handle _ _
    have h3 : r.vb.consumer_frame.handle = s.consumer_frame.handle := by
      rw [hv]; exact release_handle _ _
    refine ⟨h1, h2, h3, ?_⟩
    rw [h1, h2, h3]
    exact List.Perm.swap _ _ _
  · intro sk t ht
    obtain ⟨-, hv, hf, -, -⟩ := take_completed ht
    have h1 : t.vb.pending_frame.handle = s.consumer_frame.handle := by rw [hv]; rfl
    have hrel : release s.consumer_frame.handle s.pending_frame = s.pending_frame :=
      release_of_ne hs
    have h2 : t.vb.consumer_frame = s.pending_frame := by rw [hv]; exact hrel
    have hf2 : t.frame = s.pending_frame := by rw [hf]; exact hrel
    have hdt : t.vb.pending_frame.handle ≠ t.vb.consumer_frame.handle := by
      rw [h1, h2]
      exact fun heq => hs heq.symm
    refine ⟨h1, by rw [h2], by rw [hf2], hdt, ?_⟩
    intro ops2 s2 obs2 hn hfresh2 he2
    have hc2 : s2.consumer_frame = t.frame := by
      rw [exec_no_take_consumer ops2 t.vb s2 obs2 hdt hfresh2 hn he2, h2, hf2]
    have hd2 := exec_distinct ops2 t.vb s2 obs2 hdt hfresh2 he2
    refine ⟨hc2, by rw [← hc2]; exact hd2, ?_⟩
    intro g r2 hr2
    obtain ⟨-, hv2, hp2, -⟩ := offer_completed hr2
    constructor
    · rw [hp2, ← hc2]
      exact hd2
    · rw [hv2]
      simp only
      rw [release_of_ne (fun heq => hd2 heq.symm)]
      exact hc2

theorem handles_are_conserved_witness :
    (env_ok.pending_frame = some (fresh false).pending_frame.handle ∧
      env_ok.consumer_frame = some (fresh false).consumer_frame.handle) ∧
    ({ fresh false with pending_frame := frame_C, consumer_frame := frame_A,
                        pending_frame_consumed := false } :
        video_buffer).pending_frame.handle ≠
      ({ fresh false with pending_frame := frame_C, consumer_frame := frame_A,
                          pending_frame_consumed := false } :
        video_buffer).consumer_frame.handle := by
  have h := handles_are_conserved false false env_ok true true (fresh false) (by decide)
    (by decide)
    [Op.offer frame_A, Op.take none, Op.offer frame_C]
    { fresh false with pending_frame := frame_C, consumer_frame := frame_A,
                       pending_frame_consumed := false }
    [Obs.offered (av_frame_alloc 1) true, Obs.took frame_A none,
      Obs.offered (av_frame_alloc 2) true]
    (by decide) (by decide)
  exact ⟨h.1, h.2.1⟩

end VideoBuffer
